import Mathlib

/-!
Shallow embedding of the webhook reconciliation and subscription lifecycle
core of the wopr-plugin-github repository.

The remote platform (reached through the `gh` command-line client in the
source) is modelled as explicit state: a scope's registrations are a list of
hooks (id and configured URL), and every remote invocation the code would
perform is recorded in an explicit call trace.  Environment flags model the
outcomes of the external collaborators (authentication check, hostname
provider, webhooks configuration provider, success or failure of the
individual remote calls), exactly mirroring the branches the source code
takes on those outcomes.
-/

set_option maxRecDepth 4096

/-! ## Character and string helpers -/

/-- ASCII alphanumeric, as matched by the `[a-zA-Z0-9]` character class of the
source's `GITHUB_ORG_REGEX`. -/
def isAlnumChar (c : Char) : Bool :=
  c.isAlpha || c.isDigit

/-- The separator characters admitted in the middle of an identifier
(`.`, `_`, `-` from the regex character class `[a-zA-Z0-9._-]`). -/
def isSepChar (c : Char) : Bool :=
  c = '.' || c = '_' || c = '-'

/-- A character of the regex class `[a-zA-Z0-9._-]`. -/
def isOrgChar (c : Char) : Bool :=
  isAlnumChar c || isSepChar c

/-- Embeds `validateOrg` from the source: the test of
`GITHUB_ORG_REGEX = /^[a-zA-Z0-9](?:[a-zA-Z0-9._-]{0,37}[a-zA-Z0-9])?$/`.
A single character must be alphanumeric; a longer string must start and end
with an alphanumeric character, have all interior characters in the
`[a-zA-Z0-9._-]` class, and have total length at most 39. -/
def validateOrg (s : String) : Bool :=
  match s.toList with
  | [] => false
  | [c] => isAlnumChar c
  | c :: cs =>
      isAlnumChar c && cs.length ≤ 38 &&
      (match cs.getLast? with
       | some d => isAlnumChar d
       | none => true) &&
      cs.dropLast.all isOrgChar

/-- Split a character list on a separator character, with the semantics of
JavaScript `String.prototype.split` on a one-character separator. -/
def splitChar (sep : Char) : List Char → List (List Char)
  | [] => [[]]
  | c :: cs =>
      let rest := splitChar sep cs
      if c = sep then [] :: rest
      else
        match rest with
        | r :: rs => (c :: r) :: rs
        | [] => [[c]]

/-- Embeds `isValidRepo` from the source: the test of
`/^[a-zA-Z0-9._-]+\/[a-zA-Z0-9._-]+$/` — exactly one slash separating two
non-empty runs of identifier characters (the character class excludes the
slash, so the two runs carry no further slash). -/
def isValidRepo (s : String) : Bool :=
  match splitChar '/' s.toList with
  | [a, b] =>
      ¬ a.isEmpty && ¬ b.isEmpty && a.all isOrgChar && b.all isOrgChar
  | _ => false

/-- Whether `pat` is a leading run of `l` (character-list version). -/
def listHasPre (pat : List Char) (l : List Char) : Bool :=
  match pat, l with
  | [], _ => true
  | _ :: _, [] => false
  | p :: ps, c :: cs => p = c && listHasPre ps cs

/-- Whether `pat` occurs contiguously somewhere in `l`. -/
def listHasSub (pat : List Char) : List Char → Bool
  | [] => pat.isEmpty
  | c :: cs => listHasPre pat (c :: cs) || listHasSub pat cs

/-- Substring containment on strings, used to model JavaScript
`String.prototype.includes` in the unsubscribe "Not Found"/"404" check. -/
def strContains (s pat : String) : Bool :=
  listHasSub pat.toList s.toList

/-- Suffix test on strings, modelling JavaScript `String.prototype.endsWith`
in the stale-hook detection. -/
def strEndsWith (s suffixStr : String) : Bool :=
  listHasPre suffixStr.toList.reverse s.toList.reverse

/-! ## Remote world model -/

/-- One webhook registration as the remote platform stores it: the
remote-assigned numeric id and the configured delivery URL. -/
structure Hook where
  id : Nat
  url : String
deriving DecidableEq, Repr

/-- The remote platform's state for one scope (an organization's or a
repository's hook list) together with the id the platform will assign to the
next created registration. -/
structure ScopeState where
  hooks : List Hook
  nextId : Nat
deriving DecidableEq, Repr

/-- The webhooks extension's configuration (`getConfig()` result): delivery
base path and shared secret token. -/
structure WebhooksConfig where
  basePath : String
  token : String
deriving DecidableEq, Repr

/-- Environment: the outcomes of the external collaborators during one
operation.  `authOk` is the `gh auth status` result; `hostname` is the funnel
extension's hostname (`none` when the extension is missing or reports no
hostname); `webhooksConfig` is the webhooks extension's configuration
(`none` when the extension is missing or unconfigured); the `…Ok` flags give
the success of the corresponding remote calls, with `…Err` the stderr text on
failure; `now` is the current timestamp string. -/
structure Env where
  authOk : Bool
  funnelAvail : Bool
  hostname : Option String
  webhooksConfig : Option WebhooksConfig
  listOk : Bool
  patchOk : Bool
  patchErr : String
  createOk : Bool
  createErr : String
  deleteOk : Bool
  deleteErr : String
  now : String
deriving Repr

/-- A remote (`gh`) invocation, recorded with the API path the source would
interpolate the identifier into. -/
inductive GhCall where
  | authCheck
  | listHooks (path : String)
  | patchHook (path : String) (url : String)
  | createHook (path : String) (url : String) (events : List String)
  | deleteHook (path : String)
deriving DecidableEq, Repr

/-- Whether a remote call mutates the remote platform (create, patch or
delete, as opposed to auth checks and listings). -/
def isWriteCall : GhCall → Bool
  | .patchHook _ _ => true
  | .createHook _ _ _ => true
  | .deleteHook _ => true
  | _ => false

/-- Embeds the result shape `WebhookSetupResult` of the source. -/
structure WebhookSetupResult where
  success : Bool
  webhookUrl : Option String
  webhookId : Option Nat
  error : Option String
deriving DecidableEq, Repr

/-- Outcome of a reconciliation operation: the structured result, the remote
scope state afterwards, and the trace of remote calls issued. -/
structure SetupOut where
  res : WebhookSetupResult
  state : ScopeState
  calls : List GhCall
deriving DecidableEq, Repr

/-- Embeds `getWebhookUrl` from the source: requires the funnel and webhooks
extensions, a webhooks configuration, and a non-empty hostname, and builds
`https://{hostname}{basePath}/github`. -/
def getWebhookUrl (e : Env) : Option String :=
  if ¬ e.funnelAvail then none
  else
    match e.webhooksConfig with
    | none => none
    | some cfg =>
        match e.hostname with
        | none => none
        | some h =>
            if h = "" then none
            else some ("https://" ++ h ++ cfg.basePath ++ "/github")

/-- The desired delivery URL for a hostname and base path, as interpolated at
several places in the source. -/
def desiredUrl (hostname basePath : String) : String :=
  "https://" ++ hostname ++ basePath ++ "/github"

/-- Embeds `findOrgWebhookByUrl`: validates the org, lists the org's hooks
and returns the id of the first whose configured URL equals `url` exactly.
Returns `none` without any remote call on an invalid org, and `none` when the
listing call fails. -/
def findOrgWebhookByUrl (e : Env) (st : ScopeState) (org url : String) :
    Option Nat × List GhCall :=
  if ¬ validateOrg org then (none, [])
  else if e.listOk then
    ((st.hooks.find? (fun h => h.url = url)).map (fun h => h.id),
      [.listHooks ("orgs/" ++ org ++ "/hooks")])
  else (none, [.listHooks ("orgs/" ++ org ++ "/hooks")])

/-- Embeds `findAnyOrgWebhook`: validates the org, lists the org's hooks and
returns the first with a non-empty URL ending in `{basePath}/github` (a hook
surviving a hostname change). -/
def findAnyOrgWebhook (e : Env) (st : ScopeState) (org basePath : String) :
    Option Hook × List GhCall :=
  if ¬ validateOrg org then (none, [])
  else if e.listOk then
    (st.hooks.find? (fun h => h.url ≠ "" && strEndsWith h.url (basePath ++ "/github")),
      [.listHooks ("orgs/" ++ org ++ "/hooks")])
  else (none, [.listHooks ("orgs/" ++ org ++ "/hooks")])

/-- The remote platform's effect of a PATCH on hook `id`: its configured URL
becomes `url`. -/
def patchHookState (st : ScopeState) (id : Nat) (url : String) : ScopeState :=
  ⟨st.hooks.map (fun h => if h.id = id then ⟨h.id, url⟩ else h), st.nextId⟩

/-- The creation step of `setupOrgWebhook` (POST of a new registration with
the fixed org-scope event set); on failure the source returns the remote
error detail. -/
def setupCreate (e : Env) (st : ScopeState) (org url : String)
    (events : List String) (calls : List GhCall) : SetupOut :=
  let calls2 := calls ++ [.createHook ("orgs/" ++ org ++ "/hooks") url events]
  if e.createOk then
    ⟨⟨true, some url, some st.nextId, none⟩,
      ⟨st.hooks ++ [⟨st.nextId, url⟩], st.nextId + 1⟩, calls2⟩
  else
    ⟨⟨false, none, none, some ("Failed to create webhook: " ++ e.createErr)⟩,
      st, calls2⟩

/-- The stale-hook step of `setupOrgWebhook`: look for any hook with the
base-path suffix, PATCH it to the desired URL when found (falling through to
creation when the PATCH fails), otherwise create. -/
def setupStale (e : Env) (st : ScopeState) (org webhookUrl : String)
    (cfg : WebhooksConfig) (calls : List GhCall) : SetupOut :=
  let staleR := findAnyOrgWebhook e st org cfg.basePath
  let calls1 := calls ++ staleR.2
  match staleR.1 with
  | some stale =>
      let calls2 := calls1 ++
        [.patchHook ("orgs/" ++ org ++ "/hooks/" ++ toString stale.id) webhookUrl]
      if e.patchOk then
        ⟨⟨true, some webhookUrl, some stale.id, none⟩,
          patchHookState st stale.id webhookUrl, calls2⟩
      else
        setupCreate e st org webhookUrl ["pull_request", "pull_request_review"] calls2
  | none =>
      setupCreate e st org webhookUrl ["pull_request", "pull_request_review"] calls1

/-- Embeds `setupOrgWebhook` from the source: validate the org, check
authentication, compute the desired URL, require a configured token, then
reconcile — exact URL match first, stale (suffix) match second, creation
last.  A found id of 0 is falsy in the source's `if (existingExact)` test and
is therefore not treated as an exact match. -/
def setupOrgWebhook (e : Env) (st : ScopeState) (org : String) : SetupOut :=
  if ¬ validateOrg org then
    ⟨⟨false, none, none, some ("Invalid org name: \"" ++ org ++
        "\". Only alphanumeric characters, hyphens, dots, and underscores are allowed.")⟩,
      st, []⟩
  else if ¬ e.authOk then
    ⟨⟨false, none, none, some "gh CLI not authenticated. Run \x27gh auth login\x27 first."⟩,
      st, [.authCheck]⟩
  else
    match getWebhookUrl e with
    | none =>
        ⟨⟨false, none, none, some "No webhook URL available. Ensure tailscale-funnel and webhooks plugins are configured."⟩,
          st, [.authCheck]⟩
    | some webhookUrl =>
        match e.webhooksConfig with
        | none =>
            ⟨⟨false, none, none, some "No webhook token configured"⟩, st, [.authCheck]⟩
        | some cfg =>
            if cfg.token = "" then
              ⟨⟨false, none, none, some "No webhook token configured"⟩, st, [.authCheck]⟩
            else
              let exact := findOrgWebhookByUrl e st org webhookUrl
              let calls1 := [GhCall.authCheck] ++ exact.2
              match exact.1 with
              | some eid =>
                  if eid ≠ 0 then
                    ⟨⟨true, some webhookUrl, some eid, none⟩, st, calls1⟩
                  else setupStale e st org webhookUrl cfg calls1
              | none => setupStale e st org webhookUrl cfg calls1

/-- The old-URL lookup and PATCH tail of `updateOrgWebhook`.  The source's
`if (!hookId)` treats a found id of 0 like "not found". -/
def updateOrgFindOld (e : Env) (st : ScopeState) (org oldUrl newUrl : String)
    (calls : List GhCall) : SetupOut :=
  let fo := findOrgWebhookByUrl e st org oldUrl
  let calls1 := calls ++ fo.2
  let noneFound : SetupOut :=
    ⟨⟨false, none, none,
        some ("No existing webhook found for " ++ org ++ " with URL " ++ oldUrl)⟩,
      st, calls1⟩
  match fo.1 with
  | none => noneFound
  | some hid =>
      if hid = 0 then noneFound
      else
        let calls2 := calls1 ++
          [.patchHook ("orgs/" ++ org ++ "/hooks/" ++ toString hid) newUrl]
        if e.patchOk then
          ⟨⟨true, some newUrl, some hid, none⟩, patchHookState st hid newUrl, calls2⟩
        else
          ⟨⟨false, none, none,
              some ("Failed to update webhook " ++ toString hid ++ ": " ++ e.patchErr)⟩,
            st, calls2⟩

/-- Embeds `updateOrgWebhook` from the source: the explicit old-hostname to
new-hostname transition.  Validates the org and authentication, requires the
webhooks configuration, treats an existing hook at the new URL as an
idempotent no-op, otherwise PATCHes the hook found at the old URL. -/
def updateOrgWebhook (e : Env) (st : ScopeState) (org oldHostname newHostname : String) :
    SetupOut :=
  if ¬ validateOrg org then
    ⟨⟨false, none, none, some ("Invalid org name: \"" ++ org ++
        "\". Only alphanumeric characters, hyphens, dots, and underscores are allowed.")⟩,
      st, []⟩
  else if ¬ e.authOk then
    ⟨⟨false, none, none, some "gh CLI not authenticated. Run \x27gh auth login\x27 first."⟩,
      st, [.authCheck]⟩
  else
    match e.webhooksConfig with
    | none =>
        ⟨⟨false, none, none, some "Webhooks extension not configured"⟩, st, [.authCheck]⟩
    | some cfg =>
        let oldUrl := desiredUrl oldHostname cfg.basePath
        let newUrl := desiredUrl newHostname cfg.basePath
        let already := findOrgWebhookByUrl e st org newUrl
        let calls1 := [GhCall.authCheck] ++ already.2
        match already.1 with
        | some aid =>
            if aid ≠ 0 then ⟨⟨true, some newUrl, some aid, none⟩, st, calls1⟩
            else updateOrgFindOld e st org oldUrl newUrl calls1
        | none => updateOrgFindOld e st org oldUrl newUrl calls1

/-- Embeds `findRepoWebhookByUrl` from the source: lists the repository's
hooks and returns the id of the first whose URL equals `url`.  The source
performs no identifier validation here — the listing call is issued for any
`repo` string. -/
def findRepoWebhookByUrl (e : Env) (st : ScopeState) (repo url : String) :
    Option Nat × List GhCall :=
  if e.listOk then
    ((st.hooks.find? (fun h => h.url = url)).map (fun h => h.id),
      [.listHooks ("repos/" ++ repo ++ "/hooks")])
  else (none, [.listHooks ("repos/" ++ repo ++ "/hooks")])

/-! ## Subscription store model -/

/-- Embeds the `RepoSubscription` record of the source's types. -/
structure RepoSubscription where
  repo : String
  webhookId : Nat
  events : List String
  session : Option String
  createdAt : String
deriving DecidableEq, Repr

/-- The in-memory subscription map, modelled as an insertion-ordered
association list with the semantics of a JavaScript `Map`. -/
abbrev SubMap := List (String × RepoSubscription)

/-- JavaScript `Map.prototype.set`: replace in place when the key exists,
append otherwise. -/
def mapSet (m : SubMap) (k : String) (v : RepoSubscription) : SubMap :=
  if m.any (fun p => p.1 = k) then
    m.map (fun p => if p.1 = k then (k, v) else p)
  else m ++ [(k, v)]

/-- JavaScript `Map.prototype.get`. -/
def mapGet (m : SubMap) (k : String) : Option RepoSubscription :=
  (m.find? (fun p => p.1 = k)).map (fun p => p.2)

/-- JavaScript `Map.prototype.delete` (as used; the Boolean result is
discarded by the source). -/
def mapDelete (m : SubMap) (k : String) : SubMap :=
  m.filter (fun p => p.1 ≠ k)

/-- Embeds `listSubscriptions` (`Array.from(subscriptions.values())`). -/
def listSubscriptions (m : SubMap) : List RepoSubscription :=
  m.map (fun p => p.2)

/-- The source's `DEFAULT_REPO_EVENTS` constant. -/
def DEFAULT_REPO_EVENTS : List String :=
  ["push", "pull_request", "pull_request_review", "issues", "issue_comment"]

/-- Outcome of a repository-scope subscription operation: structured result,
new subscription map, new repository hook state, remote call trace. -/
structure SubscribeOut where
  res : WebhookSetupResult
  subs : SubMap
  state : ScopeState
  calls : List GhCall
deriving DecidableEq, Repr

/-- Embeds `subscribeRepo` from the source: validate the repo format, check
authentication, reject when already subscribed, compute the desired URL,
require a token, adopt an existing hook at the desired URL, otherwise create
one; on success record the subscription in the map. -/
def subscribeRepo (e : Env) (subs : SubMap) (st : ScopeState) (repo : String)
    (events : Option (List String)) (session : Option String) : SubscribeOut :=
  if ¬ isValidRepo repo then
    ⟨⟨false, none, none, some ("Invalid repo format: \"" ++ repo ++ "\". Use owner/repo")⟩,
      subs, st, []⟩
  else if ¬ e.authOk then
    ⟨⟨false, none, none, some "gh CLI not authenticated. Run \x27gh auth login\x27 first."⟩,
      subs, st, [.authCheck]⟩
  else
    match mapGet subs repo with
    | some existing =>
        ⟨⟨false, none, none,
            some ("Already subscribed to " ++ repo ++ " (webhook ID: " ++
              toString existing.webhookId ++ "). Unsubscribe first to change settings.")⟩,
          subs, st, [.authCheck]⟩
    | none =>
        match getWebhookUrl e with
        | none =>
            ⟨⟨false, none, none, some "No webhook URL available. Ensure tailscale-funnel and webhooks plugins are configured."⟩,
              subs, st, [.authCheck]⟩
        | some webhookUrl =>
            match e.webhooksConfig with
            | none =>
                ⟨⟨false, none, none, some "No webhook token configured"⟩,
                  subs, st, [.authCheck]⟩
            | some cfg =>
                if cfg.token = "" then
                  ⟨⟨false, none, none, some "No webhook token configured"⟩,
                    subs, st, [.authCheck]⟩
                else
                  let evs := events.getD DEFAULT_REPO_EVENTS
                  let found := findRepoWebhookByUrl e st repo webhookUrl
                  let calls1 := [GhCall.authCheck] ++ found.2
                  match found.1 with
                  | some eid =>
                      if eid ≠ 0 then
                        let sub : RepoSubscription := ⟨repo, eid, evs, session, e.now⟩
                        ⟨⟨true, some webhookUrl, some eid, none⟩,
                          mapSet subs repo sub, st, calls1⟩
                      else subscribeCreate e subs st repo webhookUrl evs session calls1
                  | none => subscribeCreate e subs st repo webhookUrl evs session calls1
where
  /-- The creation tail of `subscribeRepo` (POST of a repo-level hook with the
  caller's event list, then record and persist the subscription). -/
  subscribeCreate (e : Env) (subs : SubMap) (st : ScopeState)
      (repo webhookUrl : String) (evs : List String) (session : Option String)
      (calls : List GhCall) : SubscribeOut :=
    let calls2 := calls ++ [.createHook ("repos/" ++ repo ++ "/hooks") webhookUrl evs]
    if e.createOk then
      let sub : RepoSubscription := ⟨repo, st.nextId, evs, session, e.now⟩
      ⟨⟨true, some webhookUrl, some st.nextId, none⟩,
        mapSet subs repo sub, ⟨st.hooks ++ [⟨st.nextId, webhookUrl⟩], st.nextId + 1⟩, calls2⟩
    else
      ⟨⟨false, none, none, some ("Failed to create webhook: " ++ e.createErr)⟩,
        subs, st, calls2⟩

/-- Result of an unsubscribe operation (the source returns only
`{ success, error? }` here). -/
structure UnsubOut where
  success : Bool
  error : Option String
  subs : SubMap
  calls : List GhCall
deriving DecidableEq, Repr

/-- Embeds `unsubscribeRepo` from the source: require a stored record, check
authentication, DELETE the remote hook — a failure whose output contains
"Not Found" or "404" is tolerated — then drop the record. -/
def unsubscribeRepo (e : Env) (subs : SubMap) (repo : String) : UnsubOut :=
  match mapGet subs repo with
  | none => ⟨false, some ("Not subscribed to " ++ repo), subs, []⟩
  | some sub =>
      if ¬ e.authOk then
        ⟨false, some "gh CLI not authenticated. Run \x27gh auth login\x27 first.",
          subs, [.authCheck]⟩
      else
        let calls := [GhCall.authCheck,
          .deleteHook ("repos/" ++ repo ++ "/hooks/" ++ toString sub.webhookId)]
        if e.deleteOk then
          ⟨true, none, mapDelete subs repo, calls⟩
        else if strContains e.deleteErr "Not Found" || strContains e.deleteErr "404" then
          ⟨true, none, mapDelete subs repo, calls⟩
        else
          ⟨false, some ("Failed to delete webhook: " ++ e.deleteErr), subs, calls⟩

/-- Outcome of the repo-scope hostname-transition update: structured result,
new repository hook state, new subscription map, remote call trace. -/
structure RepoUpdateOut where
  res : WebhookSetupResult
  state : ScopeState
  subs : SubMap
  calls : List GhCall
deriving DecidableEq, Repr

/-- Embeds `updateRepoWebhook` from the source: requires only the webhooks
configuration (no identifier validation and no authentication check), treats
an existing hook at the new URL as already updated, otherwise PATCHes the
hook found at the old URL and refreshes the stored record's `webhookId`. -/
def updateRepoWebhook (e : Env) (st : ScopeState) (subs : SubMap)
    (repo oldHostname newHostname : String) : RepoUpdateOut :=
  match e.webhooksConfig with
  | none => ⟨⟨false, none, none, some "Webhooks extension not configured"⟩, st, subs, []⟩
  | some cfg =>
      let oldUrl := desiredUrl oldHostname cfg.basePath
      let newUrl := desiredUrl newHostname cfg.basePath
      let already := findRepoWebhookByUrl e st repo newUrl
      match already.1 with
      | some aid =>
          if aid ≠ 0 then ⟨⟨true, some newUrl, some aid, none⟩, st, subs, already.2⟩
          else updateRepoFindOld e st subs repo oldUrl newUrl already.2
      | none => updateRepoFindOld e st subs repo oldUrl newUrl already.2
where
  /-- The old-URL lookup and PATCH tail of `updateRepoWebhook`. -/
  updateRepoFindOld (e : Env) (st : ScopeState) (subs : SubMap)
      (repo oldUrl newUrl : String) (calls : List GhCall) : RepoUpdateOut :=
    let fo := findRepoWebhookByUrl e st repo oldUrl
    let calls1 := calls ++ fo.2
    let noneFound : RepoUpdateOut :=
      ⟨⟨false, none, none,
          some ("No existing webhook found for " ++ repo ++ " with URL " ++ oldUrl)⟩,
        st, subs, calls1⟩
    match fo.1 with
    | none => noneFound
    | some hid =>
        if hid = 0 then noneFound
        else
          let calls2 := calls1 ++
            [.patchHook ("repos/" ++ repo ++ "/hooks/" ++ toString hid) newUrl]
          if e.patchOk then
            let subs2 :=
              match mapGet subs repo with
              | some sub => mapSet subs repo { sub with webhookId := hid }
              | none => subs
            ⟨⟨true, some newUrl, some hid, none⟩, patchHookState st hid newUrl, subs2, calls2⟩
          else
            ⟨⟨false, none, none,
                some ("Failed to update repo webhook " ++ toString hid ++ ": " ++ e.patchErr)⟩,
              st, subs, calls2⟩

/-! ## Subscription store load (three-tier migration) -/

/-- An observable action of the load routine: reading or unlinking the legacy
file, a `storage.put`, a `storage.list`, or reading the embedded config. -/
inductive LoadEff where
  | readLegacy
  | unlinkLegacy
  | persistPut (key : String)
  | storageList
  | readConfig
deriving DecidableEq, Repr

/-- Environment of one run of the load routine.  `legacy` is the legacy flat
file: `none` when absent, `some none` when present but unreadable or invalid
JSON, `some (some entries)` when it parses to a repository-to-record object.
`storageAvail` is whether the Storage API capability is present, `listOk` and
`putOk` whether its calls succeed, `unlinkOk` whether deleting the legacy
file succeeds, and `configSubs` the config-embedded subscriptions. -/
structure LoadEnv where
  legacy : Option (Option (List (String × RepoSubscription)))
  storageAvail : Bool
  listOk : Bool
  putOk : Bool
  unlinkOk : Bool
  configSubs : Option (List (String × RepoSubscription))
deriving Repr

/-- Outcome of the load routine: the in-memory map, the structured store's
rows afterwards, the legacy file afterwards, and the action trace. -/
structure LoadOut where
  mem : SubMap
  storage : List (String × RepoSubscription)
  legacyAfter : Option (Option (List (String × RepoSubscription)))
  effs : List LoadEff
deriving Repr

/-- Embeds `persistSubscription`: a `storage.put` keyed by the record's
`repo` field; silently skipped when the Storage API is absent, and a put
failure is caught and ignored. -/
def persistSubscription (env : LoadEnv) (storage : List (String × RepoSubscription))
    (sub : RepoSubscription) : List (String × RepoSubscription) :=
  if env.storageAvail ∧ env.putOk then mapSet storage sub.repo sub else storage

/-- Persist every record of `subs` in order, returning the new store rows and
the trace of `storage.put` calls issued (one per record when the Storage API
is present). -/
def persistAll (env : LoadEnv) (storage : List (String × RepoSubscription))
    (subs : List RepoSubscription) :
    List (String × RepoSubscription) × List LoadEff :=
  match subs with
  | [] => (storage, [])
  | sub :: rest =>
      let tail := persistAll env (persistSubscription env storage sub) rest
      (tail.1, (if env.storageAvail then [LoadEff.persistPut sub.repo] else []) ++ tail.2)

/-- Load a list of `(key, record)` entries into a fresh map in order, with
JavaScript `Map.set` semantics (`subscriptions.set(repo, sub)`). -/
def loadEntries (entries : List (String × RepoSubscription)) : SubMap :=
  entries.foldl (fun m p => mapSet m p.1 p.2) []

/-- Tier 3 of the load routine: fall back to config-embedded subscriptions
and persist each to the structured store when any were loaded. -/
def loadFromConfig (env : LoadEnv) (storage0 : List (String × RepoSubscription))
    (effs0 : List LoadEff) : LoadOut :=
  match env.configSubs with
  | some entries =>
      let mem := loadEntries entries
      if mem.length > 0 then
        let persisted := persistAll env storage0 (listSubscriptions mem)
        ⟨mem, persisted.1, env.legacy, effs0 ++ [.readConfig] ++ persisted.2⟩
      else ⟨mem, storage0, env.legacy, effs0 ++ [.readConfig]⟩
  | none => ⟨[], storage0, env.legacy, effs0 ++ [.readConfig]⟩

/-- Tiers 2 and 3 of the load routine: read all rows from the structured
store, keep those with a non-empty `repo` field keyed by that field, stop if
any were kept, otherwise fall back to the config tier. -/
def loadFromStorage (env : LoadEnv) (storage0 : List (String × RepoSubscription))
    (effs0 : List LoadEff) : LoadOut :=
  if env.storageAvail then
    if env.listOk then
      let mem := (storage0.map (fun p => p.2)).foldl
        (fun m sub => if sub.repo ≠ "" then mapSet m sub.repo sub else m) []
      if mem.length > 0 then ⟨mem, storage0, env.legacy, effs0 ++ [.storageList]⟩
      else loadFromConfig env storage0 (effs0 ++ [.storageList])
    else loadFromConfig env storage0 (effs0 ++ [.storageList])
  else loadFromConfig env storage0 effs0

/-- Embeds `loadSubscriptions` from the source.  Tier 1: when the legacy file
exists and parses, load its entries, persist each to the structured store,
attempt to delete the file, and stop; when it exists but does not parse, fall
through without deleting it.  Tier 2: load the structured store's rows and
stop if any usable row was found.  Tier 3: fall back to config-embedded
subscriptions, persisting them. -/
def loadSubscriptions (env : LoadEnv) (storage0 : List (String × RepoSubscription)) :
    LoadOut :=
  match env.legacy with
  | some (some entries) =>
      let mem := loadEntries entries
      let persisted := persistAll env storage0 (listSubscriptions mem)
      ⟨mem, persisted.1,
        (if env.unlinkOk then none else env.legacy),
        [.readLegacy] ++ persisted.2 ++ [.unlinkLegacy]⟩
  | some none => loadFromStorage env storage0 [.readLegacy]
  | none => loadFromStorage env storage0 []

/-! ## Event routing -/

/-- Embeds the `GitHubConfig` shape used by the router: the tracked orgs, the
two legacy session fields, the event-routing table and the config-embedded
subscriptions. -/
structure GitHubConfig where
  orgs : List String
  prReviewSession : Option String
  releaseSession : Option String
  routing : Option (List (String × String))
  subscriptions : Option (List (String × RepoSubscription))
deriving Repr

/-- Lookup in the routing table (`config.routing?.[eventType]`). -/
def routingLookup (cfg : GitHubConfig) (key : String) : Option String :=
  match cfg.routing with
  | none => none
  | some table => (table.find? (fun p => p.1 = key)).map (fun p => p.2)

/-- Embeds `resolveSessionFromConfig` from the source: repo-level override,
then exact routing-table entry with a non-blank value, then non-blank
wildcard entry, then the legacy `prReviewSession` / `releaseSession` fields,
then `null`.  Truthiness tests of the source (`if (repo)`, `sub?.session`,
`config.prReviewSession`) make the empty string count as absent or unset:
in particular an empty-string repository skips the override lookup
entirely. -/
def resolveSessionFromConfig (subs : SubMap) (cfg : Option GitHubConfig)
    (eventType : String) (repo : Option String) : Option String :=
  let fromSub : Option String :=
    match repo with
    | some r =>
        if r = "" then none
        else
          match mapGet subs r with
          | some sub =>
              match sub.session with
              | some s => if s = "" then none else some s
              | none => none
          | none => none
    | none => none
  match fromSub with
  | some s => some s
  | none =>
      match cfg with
      | none => none
      | some config =>
          match routingLookup config eventType with
          | some route =>
              if route.trim ≠ "" then some route
              else resolveLegacy config eventType
          | none => resolveLegacy config eventType
where
  /-- Wildcard and legacy-field fallback steps of the resolver. -/
  resolveLegacy (config : GitHubConfig) (eventType : String) : Option String :=
    match routingLookup config "*" with
    | some w =>
        if w.trim ≠ "" then some w
        else resolveLegacyFields config eventType
    | none => resolveLegacyFields config eventType
  /-- The legacy `prReviewSession` / `releaseSession` fallback. -/
  resolveLegacyFields (config : GitHubConfig) (eventType : String) : Option String :=
    if (eventType == "pull_request" || eventType == "pull_request_review") &&
        (match config.prReviewSession with
         | some s => s != ""
         | none => false) then
      config.prReviewSession
    else if (eventType == "release" || eventType == "push") &&
        (match config.releaseSession with
         | some s => s != ""
         | none => false) then
      config.releaseSession
    else none

/-- The claim's wording of the resolution precedence, written independently
of the source: (1) the stored subscription's non-empty session override when
a repository is given — that is, when a repository string accompanies the
lookup and is non-empty, the empty string being the optional-string encoding
of "no repository"; (2) an exact routing-table entry with a non-blank value;
(3) a non-blank wildcard entry; (4) for `pull_request` and
`pull_request_review` the legacy PR-review-session field if set (present and
non-empty), and for `release` and `push` the legacy release-session field if
set; (5) otherwise none. -/
def resolveSessionSpec (subs : SubMap) (cfg : Option GitHubConfig)
    (eventType : String) (repo : Option String) : Option String :=
  let givenRepo : Option String :=
    match repo with
    | some r => if r = "" then none else some r
    | none => none
  let step1 : Option String :=
    (givenRepo.bind (fun r => mapGet subs r)).bind
      (fun sub => sub.session.bind (fun s => if s = "" then none else some s))
  let step2 : Option String :=
    cfg.bind (fun c => (routingLookup c eventType).bind
      (fun v => if v.trim = "" then none else some v))
  let step3 : Option String :=
    cfg.bind (fun c => (routingLookup c "*").bind
      (fun v => if v.trim = "" then none else some v))
  let step4 : Option String :=
    cfg.bind (fun c =>
      if eventType = "pull_request" ∨ eventType = "pull_request_review" then
        c.prReviewSession.bind (fun s => if s = "" then none else some s)
      else if eventType = "release" ∨ eventType = "push" then
        c.releaseSession.bind (fun s => if s = "" then none else some s)
      else none)
  match step1 with
  | some s => some s
  | none =>
      match step2 with
      | some s => some s
      | none =>
          match step3 with
          | some s => some s
          | none => step4

/-- A structured payload value, modelling the untyped JSON payload of an
inbound webhook event. -/
inductive Json where
  | null
  | str (s : String)
  | num (n : Int)
  | boolean (b : Bool)
  | arr (xs : List Json)
  | obj (fields : List (String × Json))

/-- Field access on a payload value: defined only on objects, `none`
otherwise (JavaScript property access on non-objects yields `undefined` for
the fields the router reads). -/
def jsonGet (j : Json) (k : String) : Option Json :=
  match j with
  | .obj fields => (fields.find? (fun p => p.1 = k)).map (fun p => p.2)
  | _ => none

/-- The router's repository extraction: `payload.repository.full_name` when
that traversal yields a string, `undefined` otherwise. -/
def extractRepo (payload : Json) : Option String :=
  match jsonGet payload "repository" with
  | some r =>
      match jsonGet r "full_name" with
      | some (.str s) => some s
      | _ => none
  | none => none

/-- Embeds the inbound `WebhookEvent` shape. -/
structure WebhookEvent where
  eventType : Option String
  payload : Json
  deliveryId : Option String

/-- Embeds the `WebhookRouteResult` shape. -/
structure WebhookRouteResult where
  routed : Bool
  session : Option String
  reason : Option String
deriving DecidableEq, Repr

/-- Embeds `handleWebhook` from the source: a missing or empty event type is
rejected as "Missing event type"; otherwise the repository is extracted from
the payload when possible and the resolver decides; an unresolved event is
reported as unconfigured for its type. -/
def handleWebhook (subs : SubMap) (cfg : Option GitHubConfig)
    (event : WebhookEvent) : WebhookRouteResult :=
  let notTruthy : Bool :=
    match event.eventType with
    | none => true
    | some s => s = ""
  if notTruthy then ⟨false, none, some "Missing event type"⟩
  else
    let et := event.eventType.getD ""
    let repo := extractRepo event.payload
    match resolveSessionFromConfig subs cfg et repo with
    | none => ⟨false, none, some ("No session configured for event type: " ++ et)⟩
    | some s => ⟨true, some s, none⟩

/-! ## Store operation sequences (for the store invariant) -/

/-- One Store-touching operation, with the environment and remote scope state
it runs against. -/
inductive StoreOp where
  | load (env : LoadEnv) (storage0 : List (String × RepoSubscription))
  | subscribe (e : Env) (st : ScopeState) (repo : String)
      (events : Option (List String)) (session : Option String)
  | unsubscribe (e : Env) (repo : String)
  | repoUpdate (e : Env) (st : ScopeState) (repo oldHostname newHostname : String)

/-- The effect of one Store operation on the in-memory subscription map. -/
def applySubsOp (m : SubMap) (op : StoreOp) : SubMap :=
  match op with
  | .load env storage0 => (loadSubscriptions env storage0).mem
  | .subscribe e st repo events session => (subscribeRepo e m st repo events session).subs
  | .unsubscribe e repo => (unsubscribeRepo e m repo).subs
  | .repoUpdate e st repo oldH newH => (updateRepoWebhook e st m repo oldH newH).subs

/-- The in-memory map after running a sequence of Store operations from the
empty map a process starts with. -/
def applyOps (ops : List StoreOp) : SubMap :=
  ops.foldl applySubsOp []

/-- Well-formedness of the subscription map: every entry is keyed by its
record's `repo` field, and keys are unique. -/
def SubMapWF (m : SubMap) : Prop :=
  (∀ p ∈ m, p.1 = p.2.repo) ∧ (m.map (fun p => p.1)).Nodup

/-- External data read by a load operation is keyed consistently: every
legacy-file entry and every config-embedded entry carries a key equal to its
record's `repo` field. -/
def LoadEnvWF (env : LoadEnv) : Prop :=
  (∀ entries, env.legacy = some (some entries) → ∀ p ∈ entries, p.1 = p.2.repo) ∧
  (∀ entries, env.configSubs = some entries → ∀ p ∈ entries, p.1 = p.2.repo)

/-- Well-formedness of an operation: only load operations constrain their
environment. -/
def StoreOpWF (op : StoreOp) : Prop :=
  match op with
  | .load env _ => LoadEnvWF env
  | _ => True

/-! ## Validator lemmas -/

theorem isAlnumChar_eq_false_of_sep {c : Char} (h : isSepChar c = true) :
    isAlnumChar c = false := by
  simp only [isSepChar, Bool.or_eq_true, decide_eq_true_eq] at h
  rcases h with (h | h) | h <;> subst h <;> decide

theorem not_org_of_whitespace {c : Char} (h : c.isWhitespace = true) :
    isAlnumChar c = false ∧ isSepChar c = false := by
  simp only [Char.isWhitespace, Bool.or_eq_true, decide_eq_true_eq] at h
  rcases h with ((h | h) | h) | h <;> subst h <;> exact ⟨by decide, by decide⟩

/-- Structural characterization of the source's organization-name regex: the
string is non-empty, at most 39 characters, every character is in the
identifier class, and the first and last characters are alphanumeric. -/
theorem validateOrg_true_iff (s : String) :
    validateOrg s = true ↔
      (s.toList ≠ [] ∧ s.toList.length ≤ 39 ∧
       (∀ c ∈ s.toList, isOrgChar c = true) ∧
       (∀ c, s.toList.head? = some c → isAlnumChar c = true) ∧
       (∀ c, s.toList.getLast? = some c → isAlnumChar c = true)) := by
  unfold validateOrg
  cases hl : s.toList with
  | nil => simp
  | cons a t =>
    cases t with
    | nil =>
      constructor
      · intro h
        replace h : isAlnumChar a = true := h
        refine ⟨by simp, by simp, ?_, ?_, ?_⟩
        · intro c hc
          simp only [List.mem_singleton] at hc
          subst hc
          simp [isOrgChar, h]
        · intro c hc
          simp only [List.head?_cons, Option.some.injEq] at hc
          subst hc; exact h
        · intro c hc
          simp only [List.getLast?_singleton, Option.some.injEq] at hc
          subst hc; exact h
      · rintro ⟨-, -, -, hhead, -⟩
        exact hhead a (by simp)
    | cons b cs =>
      have hne : (b :: cs : List Char) ≠ [] := by simp
      cases hg : (b :: cs).getLast? with
      | none => exact absurd (List.getLast?_eq_none_iff.mp hg) hne
      | some d =>
        have hsplit : (b :: cs).dropLast ++ [d] = b :: cs :=
          List.dropLast_append_getLast? d hg
        constructor
        · intro h
          simp only [hg, Bool.and_eq_true, decide_eq_true_eq] at h
          obtain ⟨⟨⟨ha, hlen⟩, hd⟩, hall⟩ := h
          refine ⟨by simp, by simpa using Nat.succ_le_succ hlen, ?_, ?_, ?_⟩
          · intro c hc
            rcases List.mem_cons.mp hc with hc | hc
            · subst hc; simp [isOrgChar, ha]
            · rw [← hsplit] at hc
              rcases List.mem_append.mp hc with hc | hc
              · exact (List.all_eq_true.mp hall) c hc
              · simp only [List.mem_singleton] at hc
                subst hc; simp [isOrgChar, hd]
          · intro c hc
            simp only [List.head?_cons, Option.some.injEq] at hc
            subst hc; exact ha
          · intro c hc
            rw [List.getLast?_cons_cons, hg] at hc
            simp only [Option.some.injEq] at hc
            subst hc; exact hd
        · rintro ⟨-, hlen, hall, hhead, hlast⟩
          simp only [hg, Bool.and_eq_true, decide_eq_true_eq]
          refine ⟨⟨⟨?_, ?_⟩, ?_⟩, ?_⟩
          · exact hhead a (by simp)
          · simpa using Nat.le_of_succ_le_succ (by simpa using hlen)
          · exact hlast d (by rw [List.getLast?_cons_cons]; exact hg)
          · rw [List.all_eq_true]
            intro c hc
            exact hall c (List.mem_cons_of_mem a ((List.dropLast_sublist _).mem hc))

/-- The allow-list of the specification's validation sentence, in its own
words: characters are alphanumeric, hyphen, dot or underscore; length 1 to
39; the string does not start or end with a separator character. -/
def MatchesAllowList (s : String) : Prop :=
  s.toList ≠ [] ∧ s.toList.length ≤ 39 ∧
  (∀ c ∈ s.toList, isOrgChar c = true) ∧
  (∀ c, s.toList.head? = some c → isSepChar c = false) ∧
  (∀ c, s.toList.getLast? = some c → isSepChar c = false)

instance (s : String) : Decidable (MatchesAllowList s) := by
  unfold MatchesAllowList
  exact inferInstance

/-- The failure cases the amended claim enumerates: a slash, whitespace, a
leading or trailing separator, length over 39, or the empty string. -/
def FailsAllowList (s : String) : Prop :=
  ('/' ∈ s.toList) ∨ (∃ c ∈ s.toList, c.isWhitespace = true) ∨
  (∃ c, s.toList.head? = some c ∧ isSepChar c = true) ∨
  (∃ c, s.toList.getLast? = some c ∧ isSepChar c = true) ∨
  s.toList.length > 39 ∨ s = ""

instance (s : String) : Decidable (FailsAllowList s) := by
  unfold FailsAllowList
  exact inferInstance

theorem validateOrg_false_of_fails {s : String} (h : FailsAllowList s) :
    validateOrg s = false := by
  rw [← Bool.not_eq_true, validateOrg_true_iff]
  rintro ⟨hne, hlen, hall, hhead, hlast⟩
  rcases h with h | ⟨c, hc, hw⟩ | ⟨c, hc, hsep⟩ | ⟨c, hc, hsep⟩ | h | h
  · have := hall '/' h
    simp [isOrgChar, isAlnumChar, isSepChar] at this
  · have h1 := hall c hc
    have h2 := not_org_of_whitespace hw
    simp [isOrgChar, h2.1, h2.2] at h1
  · have := hhead c hc
    rw [isAlnumChar_eq_false_of_sep hsep] at this
    cases this
  · have := hlast c hc
    rw [isAlnumChar_eq_false_of_sep hsep] at this
    cases this
  · omega
  · subst h; simp at hne

theorem validateOrg_true_of_matches {s : String} (h : MatchesAllowList s) :
    validateOrg s = true := by
  obtain ⟨hne, hlen, hall, hhead, hlast⟩ := h
  rw [validateOrg_true_iff]
  refine ⟨hne, hlen, hall, ?_, ?_⟩
  · intro c hc
    have hmem : c ∈ s.toList := by
      cases hl : s.toList with
      | nil => rw [hl] at hc; cases hc
      | cons a t =>
          rw [hl] at hc
          simp only [List.head?_cons, Option.some.injEq] at hc
          rw [← hc]
          exact List.mem_cons_self a t
    have h1 := hall c hmem
    have h2 := hhead c hc
    simpa [isOrgChar, h2] using h1
  · intro c hc
    have hmem : c ∈ s.toList := by
      have := List.mem_getLast?_eq_getLast (l := s.toList) (x := c) (by rw [hc]; rfl)
      obtain ⟨hne2, hEq⟩ := this
      subst hEq
      exact List.getLast_mem hne2
    have h1 := hall c hmem
    have h2 := hlast c hc
    simpa [isOrgChar, h2] using h1

/-! ## C3 -/

/-- C3 counterexample: the claim as stated is false on the code in two ways.
The string "a..b" contains `..` — which the claim counts as failing the
allow-list — yet the validator accepts it (the regex allows consecutive dots
between alphanumeric delimiters).  And the repo-scope hostname-transition
update performs remote listing calls for the identifier "a b/c" (which
contains a slash and whitespace) instead of failing with an
invalid-identifier error and performing no call. -/
theorem c3_counterexample :
    validateOrg "a..b" = true ∧
    (updateRepoWebhook
        ⟨true, true, some "h", some ⟨"/hooks", "tok"⟩, true, true, "", true, "", true, "", "t"⟩
        ⟨[], 1⟩ [] "a b/c" "old" "new").calls ≠ [] := by
  constructor
  · rfl
  · intro h
    have : (updateRepoWebhook
        ⟨true, true, some "h", some ⟨"/hooks", "tok"⟩, true, true, "", true, "", true, "", "t"⟩
        ⟨[], 1⟩ [] "a b/c" "old" "new").calls =
        [.listHooks "repos/a b/c/hooks", .listHooks "repos/a b/c/hooks"] := rfl
    rw [this] at h
    cases h

/-- C3 (amended): every string failing the allow-list (containing a slash or
whitespace, starting or ending with a separator, longer than 39 characters,
or empty) is rejected by the validator, and the organization-scope
operations (`setupOrgWebhook`, `updateOrgWebhook`, `findOrgWebhookByUrl`,
`findAnyOrgWebhook`) then fail immediately with an invalid-identifier error
and perform no remote or process call at all; `subscribeRepo` likewise
rejects any repo string not in owner/name form before any remote call; the
repo-scope `updateRepoWebhook` performs no identifier validation.  Every
string matching the allow-list (alphanumeric, hyphen, dot, underscore; 1-39
characters; not starting or ending with a separator — including strings
containing `..` between allowed characters) is accepted by the validator. -/
theorem c3_identifier_validation :
    (∀ s, FailsAllowList s → validateOrg s = false) ∧
    (∀ s, MatchesAllowList s → validateOrg s = true) ∧
    (∀ e st org oldH newH url bp, validateOrg org = false →
      ((setupOrgWebhook e st org).res.success = false ∧
       (setupOrgWebhook e st org).res.error =
         some ("Invalid org name: \"" ++ org ++
           "\". Only alphanumeric characters, hyphens, dots, and underscores are allowed.") ∧
       (setupOrgWebhook e st org).calls = [] ∧
       (updateOrgWebhook e st org oldH newH).res.success = false ∧
       (updateOrgWebhook e st org oldH newH).calls = [] ∧
       (findOrgWebhookByUrl e st org url).1 = none ∧
       (findOrgWebhookByUrl e st org url).2 = [] ∧
       (findAnyOrgWebhook e st org bp).1 = none ∧
       (findAnyOrgWebhook e st org bp).2 = [])) ∧
    (∀ e subs st repo events session, isValidRepo repo = false →
      ((subscribeRepo e subs st repo events session).res.success = false ∧
       (subscribeRepo e subs st repo events session).calls = [])) := by
  refine ⟨fun s h => validateOrg_false_of_fails h,
          fun s h => validateOrg_true_of_matches h, ?_, ?_⟩
  · intro e st org oldH newH url bp h
    refine ⟨?_, ?_, ?_, ?_, ?_, ?_, ?_, ?_, ?_⟩ <;>
      simp [setupOrgWebhook, updateOrgWebhook, findOrgWebhookByUrl, findAnyOrgWebhook, h]
  · intro e subs st repo events session h
    exact ⟨by simp [subscribeRepo, h], by simp [subscribeRepo, h]⟩

/-- C3 witness: the validator accepts a well-formed organization name, and a
name containing whitespace makes organization setup fail with no remote
call. -/
theorem c3_identifier_validation_witness :
    validateOrg "my-org.x" = true ∧
    validateOrg "bad org" = false ∧
    (setupOrgWebhook
        ⟨true, true, some "h", some ⟨"/hooks", "tok"⟩, true, true, "", true, "", true, "", "t"⟩
        ⟨[], 1⟩ "bad org").calls = [] := by
  refine ⟨c3_identifier_validation.2.1 "my-org.x" (by decide), ?_, ?_⟩
  · exact c3_identifier_validation.1 "bad org" (by decide)
  · exact (c3_identifier_validation.2.2.1
      ⟨true, true, some "h", some ⟨"/hooks", "tok"⟩, true, true, "", true, "", true, "", "t"⟩
      ⟨[], 1⟩ "bad org" "o" "n" "u" "b"
      (c3_identifier_validation.1 "bad org" (by decide))).2.2.1

/-! ## C5 -/

theorem legacy_fields_eq (config : GitHubConfig) (et : String) :
    resolveSessionFromConfig.resolveLegacyFields config et =
      (if et = "pull_request" ∨ et = "pull_request_review" then
        config.prReviewSession.bind (fun s => if s = "" then none else some s)
      else if et = "release" ∨ et = "push" then
        config.releaseSession.bind (fun s => if s = "" then none else some s)
      else none) := by
  unfold resolveSessionFromConfig.resolveLegacyFields
  by_cases h1 : et = "pull_request" ∨ et = "pull_request_review"
  · have hb : (et == "pull_request" || et == "pull_request_review") = true := by
      rcases h1 with h | h <;> subst h <;> simp
    have hb3 : (et == "release" || et == "push") = false := by
      rcases h1 with h | h <;> subst h <;> simp
    rw [hb]
    simp only [Bool.true_and, if_pos h1]
    cases hpr : config.prReviewSession with
    | none => simp [hb3]
    | some s =>
        by_cases hs : s = ""
        · subst hs; simp [hb3]
        · simp [hs, hpr]
  · have hb : (et == "pull_request" || et == "pull_request_review") = false := by
      push_neg at h1
      simp [h1.1, h1.2]
    rw [hb]
    simp only [Bool.false_and, if_neg, if_neg h1]
    by_cases h2 : et = "release" ∨ et = "push"
    · have hb2 : (et == "release" || et == "push") = true := by
        rcases h2 with h | h <;> subst h <;> simp
      rw [hb2]
      simp only [Bool.true_and, if_pos h2]
      cases hr : config.releaseSession with
      | none => simp
      | some s =>
          by_cases hs : s = ""
          · subst hs; simp
          · simp [hs, hr]
    · have hb2 : (et == "release" || et == "push") = false := by
        push_neg at h2
        simp [h2.1, h2.2]
      rw [hb2]
      simp [h2]

theorem legacy_eq (config : GitHubConfig) (et : String) :
    resolveSessionFromConfig.resolveLegacy config et =
      (match (routingLookup config "*").bind (fun v => if v.trim = "" then none else some v) with
       | some s => some s
       | none =>
          if et = "pull_request" ∨ et = "pull_request_review" then
            config.prReviewSession.bind (fun s => if s = "" then none else some s)
          else if et = "release" ∨ et = "push" then
            config.releaseSession.bind (fun s => if s = "" then none else some s)
          else none) := by
  unfold resolveSessionFromConfig.resolveLegacy
  cases hw : routingLookup config "*" with
  | none => simpa using legacy_fields_eq config et
  | some w =>
      by_cases hwt : w.trim = ""
      · simpa [hwt] using legacy_fields_eq config et
      · simp [hwt]

/-- C5: session resolution follows first-match-wins precedence — the
source's resolver equals, on every input, the cascade written from the
claim's wording: (1) a non-empty stored session override for the given
repository; (2) an exact routing-table entry with a non-blank value; (3) a
non-blank wildcard entry; (4) the legacy PR-review-session field for
`pull_request`/`pull_request_review` and the legacy release-session field
for `release`/`push`, when set; (5) otherwise none. -/
theorem c5_routing_precedence (subs : SubMap) (cfg : Option GitHubConfig)
    (et : String) (repo : Option String) :
    resolveSessionFromConfig subs cfg et repo = resolveSessionSpec subs cfg et repo := by
  unfold resolveSessionFromConfig resolveSessionSpec
  have tail_eq :
      (match cfg with
       | none => (none : Option String)
       | some config =>
           match routingLookup config et with
           | some route =>
               if route.trim ≠ "" then some route
               else resolveSessionFromConfig.resolveLegacy config et
           | none => resolveSessionFromConfig.resolveLegacy config et) =
      (match cfg.bind (fun c => (routingLookup c et).bind
          (fun v => if v.trim = "" then none else some v)) with
       | some s => some s
       | none =>
           match cfg.bind (fun c => (routingLookup c "*").bind
              (fun v => if v.trim = "" then none else some v)) with
           | some s => some s
           | none =>
               cfg.bind (fun c =>
                 if et = "pull_request" ∨ et = "pull_request_review" then
                   c.prReviewSession.bind (fun s => if s = "" then none else some s)
                 else if et = "release" ∨ et = "push" then
                   c.releaseSession.bind (fun s => if s = "" then none else some s)
                 else none)) := by
    cases cfg with
    | none => simp
    | some config =>
        cases hr : routingLookup config et with
        | none => simpa [hr] using legacy_eq config et
        | some route =>
            by_cases hrt : route.trim = ""
            · simpa [hr, hrt] using legacy_eq config et
            · simp [hr, hrt]
  cases repo with
  | none => simpa using tail_eq
  | some r =>
      by_cases hr : r = ""
      · simpa [hr] using tail_eq
      · cases hg : mapGet subs r with
        | none => simpa [hr, hg] using tail_eq
        | some sub =>
            cases hs : sub.session with
            | none => simpa [hr, hg, hs] using tail_eq
            | some s =>
                by_cases hse : s = ""
                · simpa [hr, hg, hs, hse] using tail_eq
                · simp [hr, hg, hs, hse]

/-! ## C6 -/

/-- C6: an absent or empty event type is rejected as "Missing event type"
regardless of the payload; a non-empty event type that resolves to no
session is rejected as unconfigured for that type; the two reasons are
always distinct strings; and a payload whose repository field is missing or
malformed produces exactly the result of an empty payload — it never itself
causes an un-routed result. -/
theorem c6_handle_webhook_unrouted :
    (∀ subs cfg payload did,
      handleWebhook subs cfg ⟨none, payload, did⟩ =
        ⟨false, none, some "Missing event type"⟩ ∧
      handleWebhook subs cfg ⟨some "", payload, did⟩ =
        ⟨false, none, some "Missing event type"⟩) ∧
    (∀ subs cfg et payload did, et ≠ "" →
      resolveSessionFromConfig subs cfg et (extractRepo payload) = none →
      handleWebhook subs cfg ⟨some et, payload, did⟩ =
        ⟨false, none, some ("No session configured for event type: " ++ et)⟩) ∧
    (∀ et, ("No session configured for event type: " ++ et) ≠ "Missing event type") ∧
    (∀ subs cfg et payload did did2, extractRepo payload = none →
      handleWebhook subs cfg ⟨some et, payload, did⟩ =
        handleWebhook subs cfg ⟨some et, Json.obj [], did2⟩) := by
  refine ⟨?_, ?_, ?_, ?_⟩
  · intro subs cfg payload did
    exact ⟨rfl, by simp [handleWebhook]⟩
  · intro subs cfg et payload did het hres
    simp [handleWebhook, het, hres]
  · intro et h
    have hlen := congrArg String.length h
    rw [String.length_append] at hlen
    have h1 : ("No session configured for event type: " : String).length = 38 := rfl
    have h2 : ("Missing event type" : String).length = 18 := rfl
    rw [h1, h2] at hlen
    omega
  · intro subs cfg et payload did did2 hrepo
    by_cases het : et = ""
    · subst het; simp [handleWebhook]
    · have : extractRepo (Json.obj []) = none := rfl
      simp [handleWebhook, het, hrepo, this]

/-- C6 witness: a valid event type with no configuration at all is reported
as unconfigured for that type, with the type spelled out in the reason. -/
theorem c6_handle_webhook_unrouted_witness :
    handleWebhook [] none ⟨some "push", Json.obj [], none⟩ =
      ⟨false, none, some ("No session configured for event type: " ++ "push")⟩ :=
  c6_handle_webhook_unrouted.2.1 [] none "push" (Json.obj []) none
    (by decide) rfl

/-! ## C7 -/

/-- C7: when a subscription record already exists for a repository (whose
identifier is in the data model's owner/name form) and authentication
succeeds, a further subscribe call fails with the already-subscribed error,
issues no remote call beyond the authentication check, and leaves the map —
and in particular the original record with its event list, session override,
webhookId and createdAt — unchanged. -/
theorem c7_resubscribe_rejected (e : Env) (subs : SubMap) (st : ScopeState)
    (repo : String) (events : Option (List String)) (session : Option String)
    (existing : RepoSubscription)
    (hv : isValidRepo repo = true) (ha : e.authOk = true)
    (hex : mapGet subs repo = some existing) :
    (subscribeRepo e subs st repo events session).res.success = false ∧
    (subscribeRepo e subs st repo events session).res.error =
      some ("Already subscribed to " ++ repo ++ " (webhook ID: " ++
        toString existing.webhookId ++ "). Unsubscribe first to change settings.") ∧
    (subscribeRepo e subs st repo events session).subs = subs ∧
    (subscribeRepo e subs st repo events session).state = st ∧
    (subscribeRepo e subs st repo events session).calls = [.authCheck] ∧
    mapGet (subscribeRepo e subs st repo events session).subs repo = some existing := by
  refine ⟨?_, ?_, ?_, ?_, ?_, ?_⟩ <;> simp [subscribeRepo, hv, ha, hex]

/-- C7 witness: re-subscribing a concretely subscribed repository is
rejected with the already-subscribed error and changes nothing. -/
theorem c7_resubscribe_rejected_witness :
    (subscribeRepo
        ⟨true, true, some "h", some ⟨"/hooks", "tok"⟩, true, true, "", true, "", true, "", "t"⟩
        [("o/r", ⟨"o/r", 7, ["push"], some "s", "t0"⟩)] ⟨[], 9⟩ "o/r" none none).subs =
      [("o/r", ⟨"o/r", 7, ["push"], some "s", "t0"⟩)] :=
  (c7_resubscribe_rejected
    ⟨true, true, some "h", some ⟨"/hooks", "tok"⟩, true, true, "", true, "", true, "", "t"⟩
    [("o/r", ⟨"o/r", 7, ["push"], some "s", "t0"⟩)] ⟨[], 9⟩ "o/r" none none
    ⟨"o/r", 7, ["push"], some "s", "t0"⟩ (by decide) rfl rfl).2.2.1

/-! ## C8 -/

/-- Deleting a key from the map makes lookups of that key miss. -/
theorem mapGet_mapDelete (subs : SubMap) (k : String) :
    mapGet (mapDelete subs k) k = none := by
  unfold mapGet mapDelete
  rw [List.find?_eq_none.2]
  · rfl
  · intro p hp
    have hmem := List.of_mem_filter hp
    simp only [decide_not, Bool.not_eq_true', decide_eq_false_iff_not] at hmem
    simp [hmem]

/-- C8: unsubscribing a subscribed repository whose remote delete fails with
"Not Found"/404 output still succeeds and removes the local record; a delete
failing for any other reason, or a failed authentication check, fails and
leaves the record in place; unsubscribing an unknown repository fails with
the not-subscribed error and changes nothing. -/
theorem c8_unsubscribe_idempotent (e : Env) (subs : SubMap) (repo : String) :
    (∀ sub, mapGet subs repo = some sub → e.authOk = true → e.deleteOk = false →
      (strContains e.deleteErr "Not Found" || strContains e.deleteErr "404") = true →
      (unsubscribeRepo e subs repo).success = true ∧
      (unsubscribeRepo e subs repo).subs = mapDelete subs repo ∧
      mapGet (unsubscribeRepo e subs repo).subs repo = none) ∧
    (∀ sub, mapGet subs repo = some sub → e.authOk = true → e.deleteOk = false →
      (strContains e.deleteErr "Not Found" || strContains e.deleteErr "404") = false →
      (unsubscribeRepo e subs repo).success = false ∧
      (unsubscribeRepo e subs repo).error =
        some ("Failed to delete webhook: " ++ e.deleteErr) ∧
      (unsubscribeRepo e subs repo).subs = subs) ∧
    (∀ sub, mapGet subs repo = some sub → e.authOk = false →
      (unsubscribeRepo e subs repo).success = false ∧
      (unsubscribeRepo e subs repo).subs = subs) ∧
    (mapGet subs repo = none →
      (unsubscribeRepo e subs repo).success = false ∧
      (unsubscribeRepo e subs repo).error = some ("Not subscribed to " ++ repo) ∧
      (unsubscribeRepo e subs repo).subs = subs) := by
  refine ⟨?_, ?_, ?_, ?_⟩
  · intro sub hex ha hd hnf
    refine ⟨?_, ?_, ?_⟩
    · simp [unsubscribeRepo, hex, ha, hd, hnf]
    · simp [unsubscribeRepo, hex, ha, hd, hnf]
    · have hs : (unsubscribeRepo e subs repo).subs = mapDelete subs repo := by
        simp [unsubscribeRepo, hex, ha, hd, hnf]
      rw [hs, mapGet_mapDelete]
  · intro sub hex ha hd hnf
    refine ⟨?_, ?_, ?_⟩ <;> simp [unsubscribeRepo, hex, ha, hd, hnf]
  · intro sub hex ha
    exact ⟨by simp [unsubscribeRepo, hex, ha], by simp [unsubscribeRepo, hex, ha]⟩
  · intro hex
    exact ⟨by simp [unsubscribeRepo, hex], by simp [unsubscribeRepo, hex],
      by simp [unsubscribeRepo, hex]⟩

/-- C8 witness: a concrete unsubscribe whose remote delete reports 404
succeeds and removes the record. -/
theorem c8_unsubscribe_idempotent_witness :
    (unsubscribeRepo
        ⟨true, true, some "h", some ⟨"/hooks", "tok"⟩, true, true, "", true, "", false,
          "HTTP 404: Not Found", "t"⟩
        [("o/r", ⟨"o/r", 7, ["push"], none, "t0"⟩)] "o/r").success = true :=
  ((c8_unsubscribe_idempotent
      ⟨true, true, some "h", some ⟨"/hooks", "tok"⟩, true, true, "", true, "", false,
        "HTTP 404: Not Found", "t"⟩
      [("o/r", ⟨"o/r", 7, ["push"], none, "t0"⟩)] "o/r").1
    ⟨"o/r", 7, ["push"], none, "t0"⟩ rfl rfl rfl (by decide)).1

/-! ## C4 -/

theorem mapSet_ne_nil (m : SubMap) (k : String) (v : RepoSubscription) :
    mapSet m k v ≠ [] := by
  unfold mapSet
  split
  · intro h
    rename_i hany
    rw [List.map_eq_nil_iff] at h
    subst h
    simp at hany
  · simp

theorem persistAll_effs_mem (env : LoadEnv) (hav : env.storageAvail = true) :
    ∀ (l : List RepoSubscription) (st : List (String × RepoSubscription)),
      ∀ sub ∈ l, LoadEff.persistPut sub.repo ∈ (persistAll env st l).2 := by
  intro l
  induction l with
  | nil => intro st sub h; cases h
  | cons a t ih =>
      intro st sub h
      simp only [persistAll, hav, if_pos]
      rcases List.mem_cons.mp h with h | h
      · subst h; simp
      · simp only [List.mem_append]
        right
        exact ih _ sub h

theorem persistAll_effs_shape (env : LoadEnv) :
    ∀ (l : List RepoSubscription) (st : List (String × RepoSubscription)),
      ∀ x ∈ (persistAll env st l).2, ∃ k, x = LoadEff.persistPut k := by
  intro l
  induction l with
  | nil => intro st x h; cases h
  | cons a t ih =>
      intro st x h
      simp only [persistAll] at h
      rcases List.mem_append.mp h with h | h
      · by_cases hav : env.storageAvail = true
        · simp [hav] at h
          exact ⟨a.repo, h⟩
        · simp only [Bool.not_eq_true] at hav
          simp [hav] at h
      · exact ih _ x h

theorem loadFromConfig_legacyAfter (env : LoadEnv)
    (st : List (String × RepoSubscription)) (effs0 : List LoadEff) :
    (loadFromConfig env st effs0).legacyAfter = env.legacy := by
  unfold loadFromConfig
  cases hc : env.configSubs with
  | none => rfl
  | some entries =>
      dsimp only
      split <;> rfl

theorem loadFromStorage_legacyAfter (env : LoadEnv)
    (st : List (String × RepoSubscription)) (effs0 : List LoadEff) :
    (loadFromStorage env st effs0).legacyAfter = env.legacy := by
  unfold loadFromStorage
  cases hav : env.storageAvail with
  | false => simp only [Bool.false_eq_true, if_false]; exact loadFromConfig_legacyAfter env st effs0
  | true =>
      simp only [if_true]
      cases hl : env.listOk with
      | false => simp only [Bool.false_eq_true, if_false]; exact loadFromConfig_legacyAfter env st _
      | true =>
          simp only [if_true]
          split
          · rfl
          · exact loadFromConfig_legacyAfter env st _

theorem loadFromConfig_effs_shape (env : LoadEnv)
    (st : List (String × RepoSubscription)) (effs0 : List LoadEff) :
    ∀ x ∈ (loadFromConfig env st effs0).effs,
      x ∈ effs0 ∨ x = LoadEff.readConfig ∨ ∃ k, x = LoadEff.persistPut k := by
  unfold loadFromConfig
  cases hc : env.configSubs with
  | none =>
      intro x hx
      rcases List.mem_append.mp hx with hx | hx
      · exact Or.inl hx
      · simp at hx; exact Or.inr (Or.inl hx)
  | some entries =>
      dsimp only
      split
      · intro x hx
        dsimp only at hx
        rcases List.mem_append.mp hx with hx | hx
        · rcases List.mem_append.mp hx with hx | hx
          · exact Or.inl hx
          · simp at hx; exact Or.inr (Or.inl hx)
        · exact Or.inr (Or.inr (persistAll_effs_shape env _ st x hx))
      · intro x hx
        dsimp only at hx
        rcases List.mem_append.mp hx with hx | hx
        · exact Or.inl hx
        · simp at hx; exact Or.inr (Or.inl hx)

theorem loadFromStorage_effs_shape (env : LoadEnv)
    (st : List (String × RepoSubscription)) (effs0 : List LoadEff) :
    ∀ x ∈ (loadFromStorage env st effs0).effs,
      x ∈ effs0 ∨ x = LoadEff.storageList ∨ x = LoadEff.readConfig ∨
        ∃ k, x = LoadEff.persistPut k := by
  have hcfg : ∀ effs1, (∀ y ∈ effs1, y ∈ effs0 ∨ y = LoadEff.storageList) →
      ∀ x ∈ (loadFromConfig env st effs1).effs,
        x ∈ effs0 ∨ x = LoadEff.storageList ∨ x = LoadEff.readConfig ∨
          ∃ k, x = LoadEff.persistPut k := by
    intro effs1 hsub x hx
    rcases loadFromConfig_effs_shape env st effs1 x hx with h | h | h
    · rcases hsub x h with h | h
      · exact Or.inl h
      · exact Or.inr (Or.inl h)
    · exact Or.inr (Or.inr (Or.inl h))
    · exact Or.inr (Or.inr (Or.inr h))
  have hbase : ∀ y ∈ effs0 ++ [LoadEff.storageList], y ∈ effs0 ∨ y = LoadEff.storageList := by
    intro y hy
    rcases List.mem_append.mp hy with hy | hy
    · exact Or.inl hy
    · simp at hy; exact Or.inr hy
  unfold loadFromStorage
  cases hav : env.storageAvail with
  | false =>
      simp only [Bool.false_eq_true, if_false]
      exact hcfg effs0 (fun y hy => Or.inl hy)
  | true =>
      simp only [if_true]
      cases hl : env.listOk with
      | false =>
          simp only [Bool.false_eq_true, if_false]
          exact hcfg _ hbase
      | true =>
          simp only [if_true]
          split
          · intro x hx
            rcases hbase x hx with h | h
            · exact Or.inl h
            · exact Or.inr (Or.inl h)
          · exact hcfg _ hbase

theorem guardedFold_ne_nil :
    ∀ (rows : List RepoSubscription) (acc : SubMap),
      (acc ≠ [] ∨ ∃ sub ∈ rows, sub.repo ≠ "") →
      rows.foldl (fun m sub => if sub.repo ≠ "" then mapSet m sub.repo sub else m) acc ≠ [] := by
  intro rows
  induction rows with
  | nil =>
      intro acc h
      rcases h with h | ⟨sub, hm, _⟩
      · simpa using h
      · cases hm
  | cons a t ih =>
      intro acc h
      simp only [List.foldl_cons]
      apply ih
      by_cases ha : a.repo = ""
      · rcases h with h | ⟨sub, hm, hr⟩
        · left; simpa [ha] using h
        · rcases List.mem_cons.mp hm with heq | hm
          · subst heq; exact absurd ha hr
          · right; exact ⟨sub, hm, hr⟩
      · left
        simp only [ne_eq, ha, not_false_iff, if_true]
        exact mapSet_ne_nil acc a.repo a

theorem guardedFold_const (rows : List RepoSubscription) (acc : SubMap)
    (h : ∀ sub ∈ rows, sub.repo = "") :
    rows.foldl (fun m sub => if sub.repo ≠ "" then mapSet m sub.repo sub else m) acc = acc := by
  induction rows generalizing acc with
  | nil => rfl
  | cons a t ih =>
      simp only [List.foldl_cons]
      rw [if_neg (by simpa using h a (List.mem_cons_self a t))]
      exact ih acc (fun sub hs => h sub (List.mem_cons_of_mem a hs))

/-- C4 counterexample: with no legacy file, an available structured store
whose single row has an empty `repo` field, and config-embedded
subscriptions, the load routine consults the config tier (and loads from it)
even though the structured store yielded a row — the claim's "at least one
row" condition is not what the code tests. -/
theorem c4_counterexample :
    ([(("" : String), (⟨"", 5, [], none, "t0"⟩ : RepoSubscription))].length > 0) ∧
    (loadSubscriptions
        ⟨none, true, true, true, true, some [("o/r", ⟨"o/r", 1, [], none, "t1"⟩)]⟩
        [("", ⟨"", 5, [], none, "t0"⟩)]).effs =
      [LoadEff.storageList, LoadEff.readConfig, LoadEff.persistPut "o/r"] ∧
    (loadSubscriptions
        ⟨none, true, true, true, true, some [("o/r", ⟨"o/r", 1, [], none, "t1"⟩)]⟩
        [("", ⟨"", 5, [], none, "t0"⟩)]).mem =
      [("o/r", ⟨"o/r", 1, [], none, "t1"⟩)] := by
  refine ⟨by decide, rfl, rfl⟩

/-- C4 (amended): the load routine applies exactly one of three tiers.  When
the legacy file exists and parses (and the structured store is available and
the deletion succeeds), its entries are loaded into memory, a persistence
call is issued for every loaded record, the legacy file is deleted, and the
later tiers are not consulted.  When the legacy file exists but is corrupt,
it is not deleted and control falls through.  When there is no legacy file
and the structured store yields at least one row with a non-empty `repo`
field, those rows are loaded and the config tier is not consulted.  When
every stored row has an empty `repo` field (or the store is empty), the
config-embedded subscriptions are loaded and a persistence call issued for
each. -/
theorem c4_load_tiers (env : LoadEnv) (storage0 : List (String × RepoSubscription)) :
    (∀ entries, env.legacy = some (some entries) → env.storageAvail = true →
      env.unlinkOk = true →
      ((loadSubscriptions env storage0).mem = loadEntries entries ∧
       (∀ p ∈ (loadSubscriptions env storage0).mem,
         LoadEff.persistPut p.2.repo ∈ (loadSubscriptions env storage0).effs) ∧
       (loadSubscriptions env storage0).legacyAfter = none ∧
       LoadEff.storageList ∉ (loadSubscriptions env storage0).effs ∧
       LoadEff.readConfig ∉ (loadSubscriptions env storage0).effs)) ∧
    (env.legacy = some none →
      ((loadSubscriptions env storage0).legacyAfter = some none ∧
       LoadEff.unlinkLegacy ∉ (loadSubscriptions env storage0).effs)) ∧
    (env.legacy = none → env.storageAvail = true → env.listOk = true →
      (∃ p ∈ storage0, p.2.repo ≠ "") →
      ((loadSubscriptions env storage0).mem =
        (storage0.map (fun p => p.2)).foldl
          (fun m sub => if sub.repo ≠ "" then mapSet m sub.repo sub else m) [] ∧
       (loadSubscriptions env storage0).storage = storage0 ∧
       LoadEff.readConfig ∉ (loadSubscriptions env storage0).effs)) ∧
    (∀ entries, env.legacy = none → env.storageAvail = true → env.listOk = true →
      (∀ p ∈ storage0, p.2.repo = "") → env.configSubs = some entries →
      ((loadSubscriptions env storage0).mem = loadEntries entries ∧
       (∀ p ∈ (loadSubscriptions env storage0).mem,
         LoadEff.persistPut p.2.repo ∈ (loadSubscriptions env storage0).effs))) := by
  refine ⟨?_, ?_, ?_, ?_⟩
  · intro entries hleg hav hunl
    have hred : loadSubscriptions env storage0 =
        ⟨loadEntries entries,
         (persistAll env storage0 (listSubscriptions (loadEntries entries))).1,
         (if env.unlinkOk then none else env.legacy),
         [.readLegacy] ++ (persistAll env storage0 (listSubscriptions (loadEntries entries))).2 ++
           [.unlinkLegacy]⟩ := by
      unfold loadSubscriptions
      rw [hleg]
    refine ⟨by rw [hred], ?_, ?_, ?_, ?_⟩
    · intro p hp
      rw [hred] at hp ⊢
      have hmem : p.2 ∈ listSubscriptions (loadEntries entries) :=
        List.mem_map_of_mem (fun q => q.2) hp
      have := persistAll_effs_mem env hav (listSubscriptions (loadEntries entries)) storage0 p.2 hmem
      simp only [List.mem_append]
      exact Or.inl (Or.inr this)
    · rw [hred]; simp [hunl]
    · rw [hred]
      intro hx
      rcases List.mem_append.mp hx with hx | hx
      · rcases List.mem_append.mp hx with hx | hx
        · simp at hx
        · rcases persistAll_effs_shape env _ storage0 _ hx with ⟨k, hk⟩
          cases hk
      · simp at hx
    · rw [hred]
      intro hx
      rcases List.mem_append.mp hx with hx | hx
      · rcases List.mem_append.mp hx with hx | hx
        · simp at hx
        · rcases persistAll_effs_shape env _ storage0 _ hx with ⟨k, hk⟩
          cases hk
      · simp at hx
  · intro hleg
    have hred : loadSubscriptions env storage0 = loadFromStorage env storage0 [.readLegacy] := by
      unfold loadSubscriptions
      rw [hleg]
    constructor
    · rw [hred, loadFromStorage_legacyAfter, hleg]
    · rw [hred]
      intro hx
      rcases loadFromStorage_effs_shape env storage0 [.readLegacy] _ hx with h | h | h | ⟨k, hk⟩
      · simp at h
      · cases h
      · cases h
      · cases hk
  · intro hleg hav hl hex
    have hred : loadSubscriptions env storage0 = loadFromStorage env storage0 [] := by
      unfold loadSubscriptions
      rw [hleg]
    have hne : (storage0.map (fun p => p.2)).foldl
        (fun m sub => if sub.repo ≠ "" then mapSet m sub.repo sub else m) [] ≠ [] := by
      apply guardedFold_ne_nil
      right
      obtain ⟨p, hp, hr⟩ := hex
      exact ⟨p.2, List.mem_map_of_mem (fun q => q.2) hp, hr⟩
    have hpos : 0 < ((storage0.map (fun p => p.2)).foldl
        (fun m sub => if sub.repo ≠ "" then mapSet m sub.repo sub else m) []).length :=
      List.length_pos.mpr hne
    have hred2 : loadFromStorage env storage0 [] =
        ⟨(storage0.map (fun p => p.2)).foldl
          (fun m sub => if sub.repo ≠ "" then mapSet m sub.repo sub else m) [],
         storage0, env.legacy, [] ++ [.storageList]⟩ := by
      unfold loadFromStorage
      simp only [hav, hl, if_true]
      rw [if_pos hpos]
    rw [hred, hred2]
    refine ⟨rfl, rfl, ?_⟩
    intro hx
    simp at hx
  · intro entries hleg hav hl hall hcfg
    have hred : loadSubscriptions env storage0 = loadFromStorage env storage0 [] := by
      unfold loadSubscriptions
      rw [hleg]
    have hzero : (storage0.map (fun p => p.2)).foldl
        (fun m sub => if sub.repo ≠ "" then mapSet m sub.repo sub else m) [] = [] := by
      apply guardedFold_const
      intro sub hs
      rcases List.mem_map.mp hs with ⟨p, hp, hpe⟩
      rw [← hpe]
      exact hall p hp
    have hred2 : loadFromStorage env storage0 [] = loadFromConfig env storage0 ([] ++ [.storageList]) := by
      unfold loadFromStorage
      simp only [hav, hl, if_true]
      rw [hzero]
      simp
    rw [hred, hred2]
    unfold loadFromConfig
    rw [hcfg]
    dsimp only
    by_cases hlen : (loadEntries entries).length > 0
    · rw [if_pos hlen]
      refine ⟨rfl, ?_⟩
      intro p hp
      have hmem : p.2 ∈ listSubscriptions (loadEntries entries) :=
        List.mem_map_of_mem (fun q => q.2) hp
      have := persistAll_effs_mem env hav (listSubscriptions (loadEntries entries)) storage0 p.2 hmem
      simp only [List.mem_append]
      exact Or.inr this
    · rw [if_neg hlen]
      refine ⟨rfl, ?_⟩
      intro p hp
      have : loadEntries entries = [] :=
        List.length_eq_zero.mp (Nat.eq_zero_of_not_pos hlen)
      rw [this] at hp
      cases hp

/-- C4 witness: a concrete legacy snapshot migrates — the entry lands in
memory, a persistence call is recorded, and the legacy file is gone. -/
theorem c4_load_tiers_witness :
    (loadSubscriptions
        ⟨some (some [("o/r", ⟨"o/r", 3, ["push"], none, "t0"⟩)]), true, true, true, true, none⟩
        []).legacyAfter = none ∧
    (loadSubscriptions
        ⟨some (some [("o/r", ⟨"o/r", 3, ["push"], none, "t0"⟩)]), true, true, true, true, none⟩
        []).mem = loadEntries [("o/r", ⟨"o/r", 3, ["push"], none, "t0"⟩)] :=
  have h := (c4_load_tiers
      ⟨some (some [("o/r", ⟨"o/r", 3, ["push"], none, "t0"⟩)]), true, true, true, true, none⟩
      []).1 [("o/r", ⟨"o/r", 3, ["push"], none, "t0"⟩)] rfl rfl rfl
  ⟨h.2.2.1, h.1⟩

/-! ## C10 -/

theorem SubMapWF_nil : SubMapWF [] := ⟨fun p hp => absurd hp (List.not_mem_nil p), List.nodup_nil⟩

theorem SubMapWF_mapSet {m : SubMap} (hwf : SubMapWF m) {k : String}
    {v : RepoSubscription} (hk : k = v.repo) : SubMapWF (mapSet m k v) := by
  obtain ⟨h1, h2⟩ := hwf
  unfold mapSet
  by_cases hany : m.any (fun p => p.1 = k) = true
  · rw [if_pos hany]
    constructor
    · intro p hp
      rcases List.mem_map.mp hp with ⟨q, hq, hqe⟩
      by_cases hqk : q.1 = k
      · rw [if_pos hqk] at hqe
        rw [← hqe]
        exact hk
      · rw [if_neg hqk] at hqe
        rw [← hqe]
        exact h1 q hq
    · have hkeys : (m.map (fun p => if p.1 = k then (k, v) else p)).map (fun p => p.1) =
          m.map (fun p => p.1) := by
        rw [List.map_map]
        apply List.map_congr_left
        intro q hq
        by_cases hqk : q.1 = k
        · simp [hqk]
        · simp [hqk]
      rw [hkeys]
      exact h2
  · rw [if_neg hany]
    constructor
    · intro p hp
      rcases List.mem_append.mp hp with hp | hp
      · exact h1 p hp
      · simp only [List.mem_singleton] at hp
        subst hp
        exact hk
    · rw [List.map_append]
      have hnk : k ∉ m.map (fun p => p.1) := by
        intro hmem
        rcases List.mem_map.mp hmem with ⟨q, hq, hqe⟩
        exact hany (List.any_eq_true.mpr ⟨q, hq, by simp [hqe]⟩)
      rw [List.nodup_append]
      refine ⟨h2, List.nodup_singleton k, ?_⟩
      intro a ha hak
      have hak2 : a = k := List.mem_singleton.mp hak
      subst hak2
      exact hnk ha

theorem SubMapWF_mapDelete {m : SubMap} (hwf : SubMapWF m) (k : String) :
    SubMapWF (mapDelete m k) := by
  obtain ⟨h1, h2⟩ := hwf
  constructor
  · intro p hp
    exact h1 p (List.mem_of_mem_filter hp)
  · exact h2.sublist ((List.filter_sublist m).map (fun p => p.1))

theorem SubMapWF_foldSet :
    ∀ (entries : List (String × RepoSubscription)) (acc : SubMap),
      SubMapWF acc → (∀ p ∈ entries, p.1 = p.2.repo) →
      SubMapWF (entries.foldl (fun m p => mapSet m p.1 p.2) acc) := by
  intro entries
  induction entries with
  | nil => intro acc hacc _; exact hacc
  | cons a t ih =>
      intro acc hacc hall
      simp only [List.foldl_cons]
      exact ih _ (SubMapWF_mapSet hacc (hall a (List.mem_cons_self a t)))
        (fun p hp => hall p (List.mem_cons_of_mem a hp))

theorem SubMapWF_guardedFold :
    ∀ (rows : List RepoSubscription) (acc : SubMap),
      SubMapWF acc →
      SubMapWF (rows.foldl
        (fun m sub => if sub.repo ≠ "" then mapSet m sub.repo sub else m) acc) := by
  intro rows
  induction rows with
  | nil => intro acc hacc; exact hacc
  | cons a t ih =>
      intro acc hacc
      simp only [List.foldl_cons]
      by_cases ha : a.repo = ""
      · rw [if_neg (by simpa using ha)]
        exact ih _ hacc
      · rw [if_pos (by simpa using ha)]
        exact ih _ (SubMapWF_mapSet hacc rfl)

theorem SubMapWF_loadEntries {entries : List (String × RepoSubscription)}
    (hall : ∀ p ∈ entries, p.1 = p.2.repo) : SubMapWF (loadEntries entries) :=
  SubMapWF_foldSet entries [] SubMapWF_nil hall

theorem loadFromConfig_mem_wf (env : LoadEnv) (st : List (String × RepoSubscription))
    (effs0 : List LoadEff)
    (hcfg : ∀ entries, env.configSubs = some entries → ∀ p ∈ entries, p.1 = p.2.repo) :
    SubMapWF (loadFromConfig env st effs0).mem := by
  unfold loadFromConfig
  cases hc : env.configSubs with
  | none => exact SubMapWF_nil
  | some entries =>
      dsimp only
      split
      · exact SubMapWF_loadEntries (hcfg entries hc)
      · exact SubMapWF_loadEntries (hcfg entries hc)

theorem loadFromStorage_mem_wf (env : LoadEnv) (st : List (String × RepoSubscription))
    (effs0 : List LoadEff)
    (hcfg : ∀ entries, env.configSubs = some entries → ∀ p ∈ entries, p.1 = p.2.repo) :
    SubMapWF (loadFromStorage env st effs0).mem := by
  unfold loadFromStorage
  cases hav : env.storageAvail with
  | false =>
      simp only [Bool.false_eq_true, if_false]
      exact loadFromConfig_mem_wf env st effs0 hcfg
  | true =>
      simp only [if_true]
      cases hl : env.listOk with
      | false =>
          simp only [Bool.false_eq_true, if_false]
          exact loadFromConfig_mem_wf env st _ hcfg
      | true =>
          simp only [if_true]
          split
          · exact SubMapWF_guardedFold _ [] SubMapWF_nil
          · exact loadFromConfig_mem_wf env st _ hcfg

theorem loadSubscriptions_mem_wf (env : LoadEnv)
    (storage0 : List (String × RepoSubscription)) (henv : LoadEnvWF env) :
    SubMapWF (loadSubscriptions env storage0).mem := by
  unfold loadSubscriptions
  cases hleg : env.legacy with
  | none => exact loadFromStorage_mem_wf env storage0 [] henv.2
  | some parse =>
      cases parse with
      | none => exact loadFromStorage_mem_wf env storage0 _ henv.2
      | some entries =>
          dsimp only
          exact SubMapWF_loadEntries (henv.1 entries hleg)

theorem subscribeRepo_subs_shape (e : Env) (subs : SubMap) (st : ScopeState)
    (repo : String) (events : Option (List String)) (session : Option String) :
    (subscribeRepo e subs st repo events session).subs = subs ∨
    (∃ sub : RepoSubscription, sub.repo = repo ∧
      (subscribeRepo e subs st repo events session).subs = mapSet subs repo sub) := by
  have hcreate : ∀ url evs calls,
      (subscribeRepo.subscribeCreate e subs st repo url evs session calls).subs = subs ∨
      (∃ sub : RepoSubscription, sub.repo = repo ∧
        (subscribeRepo.subscribeCreate e subs st repo url evs session calls).subs =
          mapSet subs repo sub) := by
    intro url evs calls
    unfold subscribeRepo.subscribeCreate
    dsimp only
    split
    · exact Or.inr ⟨⟨repo, st.nextId, evs, session, e.now⟩, rfl, rfl⟩
    · exact Or.inl rfl
  unfold subscribeRepo
  split
  · exact Or.inl rfl
  · split
    · exact Or.inl rfl
    · split
      · exact Or.inl rfl
      · split
        · exact Or.inl rfl
        · split
          · exact Or.inl rfl
          · split
            · exact Or.inl rfl
            · dsimp only
              split
              · split
                · exact Or.inr ⟨⟨repo, _, _, session, e.now⟩, rfl, rfl⟩
                · exact hcreate _ _ _
              · exact hcreate _ _ _

theorem unsubscribeRepo_subs_shape (e : Env) (subs : SubMap) (repo : String) :
    (unsubscribeRepo e subs repo).subs = subs ∨
    (unsubscribeRepo e subs repo).subs = mapDelete subs repo := by
  unfold unsubscribeRepo
  split
  · exact Or.inl rfl
  · split
    · exact Or.inl rfl
    · dsimp only
      split
      · exact Or.inr rfl
      · split
        · exact Or.inr rfl
        · exact Or.inl rfl

theorem updateRepoWebhook_subs_shape (e : Env) (st : ScopeState) (subs : SubMap)
    (repo oldH newH : String) :
    (updateRepoWebhook e st subs repo oldH newH).subs = subs ∨
    (∃ sub hid, mapGet subs repo = some sub ∧
      (updateRepoWebhook e st subs repo oldH newH).subs =
        mapSet subs repo { sub with webhookId := hid }) := by
  have hold : ∀ oldUrl newUrl calls,
      (updateRepoWebhook.updateRepoFindOld e st subs repo oldUrl newUrl calls).subs = subs ∨
      (∃ sub hid, mapGet subs repo = some sub ∧
        (updateRepoWebhook.updateRepoFindOld e st subs repo oldUrl newUrl calls).subs =
          mapSet subs repo { sub with webhookId := hid }) := by
    intro oldUrl newUrl calls
    unfold updateRepoWebhook.updateRepoFindOld
    dsimp only
    split
    · exact Or.inl rfl
    · split
      · exact Or.inl rfl
      · split
        · cases hget : mapGet subs repo with
          | none => exact Or.inl rfl
          | some sub => exact Or.inr ⟨sub, _, rfl, rfl⟩
        · exact Or.inl rfl
  unfold updateRepoWebhook
  split
  · exact Or.inl rfl
  · dsimp only
    split
    · split
      · exact Or.inl rfl
      · exact hold _ _ _
    · exact hold _ _ _

theorem applySubsOp_wf {m : SubMap} (hwf : SubMapWF m) {op : StoreOp}
    (hop : StoreOpWF op) : SubMapWF (applySubsOp m op) := by
  cases op with
  | load env storage0 => exact loadSubscriptions_mem_wf env storage0 hop
  | subscribe e st repo events session =>
      rcases subscribeRepo_subs_shape e m st repo events session with h | ⟨sub, hrepo, h⟩
      · rw [applySubsOp, h]; exact hwf
      · rw [applySubsOp, h]; exact SubMapWF_mapSet hwf hrepo.symm
  | unsubscribe e repo =>
      rcases unsubscribeRepo_subs_shape e m repo with h | h
      · rw [applySubsOp, h]; exact hwf
      · rw [applySubsOp, h]; exact SubMapWF_mapDelete hwf repo
  | repoUpdate e st repo oldH newH =>
      rcases updateRepoWebhook_subs_shape e st m repo oldH newH with h | ⟨sub, hid, hget, h⟩
      · rw [applySubsOp, h]; exact hwf
      · rw [applySubsOp, h]
        apply SubMapWF_mapSet hwf
        have hs : sub.repo = repo := by
          unfold mapGet at hget
          cases hf : m.find? (fun p => p.1 = repo) with
          | none => rw [hf] at hget; cases hget
          | some p =>
              rw [hf] at hget
              simp only [Option.map_some', Option.some.injEq] at hget
              have hp1 : p.1 = repo := by
                have := List.find?_some hf
                simpa using this
              have hp2 := hwf.1 p (List.mem_of_find?_eq_some hf)
              rw [← hget, ← hp2, hp1]
        exact hs.symm

theorem applyOps_wf :
    ∀ (ops : List StoreOp) (m : SubMap), SubMapWF m → (∀ op ∈ ops, StoreOpWF op) →
      SubMapWF (ops.foldl applySubsOp m) := by
  intro ops
  induction ops with
  | nil => intro m hm _; exact hm
  | cons a t ih =>
      intro m hm hall
      simp only [List.foldl_cons]
      exact ih _ (applySubsOp_wf hm (hall a (List.mem_cons_self a t)))
        (fun op hop => hall op (List.mem_cons_of_mem a hop))

/-- C10 counterexample: the invariant as claimed fails after a startup load
of a legacy snapshot whose key does not match its record's `repo` field —
the map then holds an entry keyed "a/b" whose record says "c/d". -/
theorem c10_counterexample :
    applyOps [StoreOp.load
        ⟨some (some [("a/b", ⟨"c/d", 1, [], none, "t"⟩)]), false, true, true, true, none⟩ []] =
      [("a/b", ⟨"c/d", 1, [], none, "t"⟩)] ∧
    ¬ SubMapWF [("a/b", ⟨"c/d", 1, [], none, "t"⟩)] := by
  constructor
  · rfl
  · intro h
    have := h.1 ("a/b", ⟨"c/d", 1, [], none, "t"⟩) (List.mem_singleton_self _)
    exact absurd this (by decide)

/-- C10 (amended): after any sequence of Store operations from the empty map
a process starts with — startup loads whose legacy-file and config entries
are keyed by their record's `repo` field, subscribes, unsubscribes and
repo-webhook updates — every entry of the in-memory map is keyed by its
record's `repo` field, keys are unique (hence at most one record per
repository), and `listSubscriptions` returns exactly the map's values. -/
theorem c10_store_invariant (ops : List StoreOp) (hwf : ∀ op ∈ ops, StoreOpWF op) :
    SubMapWF (applyOps ops) ∧
    listSubscriptions (applyOps ops) = (applyOps ops).map (fun p => p.2) ∧
    ((listSubscriptions (applyOps ops)).map (fun s => s.repo)).Nodup := by
  have h := applyOps_wf ops [] SubMapWF_nil hwf
  refine ⟨h, rfl, ?_⟩
  have hcongr : (listSubscriptions (applyOps ops)).map (fun s => s.repo) =
      (applyOps ops).map (fun p => p.1) := by
    unfold listSubscriptions
    rw [List.map_map]
    apply List.map_congr_left
    intro p hp
    exact (h.1 p hp).symm
  rw [hcongr]
  exact h.2

/-- C10 witness: a well-formed load followed by an unsubscribe keeps the
invariant. -/
theorem c10_store_invariant_witness :
    SubMapWF (applyOps
      [StoreOp.load
          ⟨some (some [("o/r", ⟨"o/r", 1, [], none, "t"⟩)]), false, true, true, true, none⟩ [],
       StoreOp.unsubscribe
          ⟨true, true, some "h", some ⟨"/hooks", "tok"⟩, true, true, "", true, "", true, "", "t"⟩
          "o/r"]) :=
  (c10_store_invariant
    [StoreOp.load
        ⟨some (some [("o/r", ⟨"o/r", 1, [], none, "t"⟩)]), false, true, true, true, none⟩ [],
     StoreOp.unsubscribe
        ⟨true, true, some "h", some ⟨"/hooks", "tok"⟩, true, true, "", true, "", true, "", "t"⟩
        "o/r"]
    (by
      intro op hop
      rcases List.mem_cons.mp hop with h | h
      · subst h
        refine ⟨?_, ?_⟩
        · intro entries he
          simp only [Option.some.injEq] at he
          subst he
          intro p hp
          have : p = ("o/r", (⟨"o/r", 1, [], none, "t"⟩ : RepoSubscription)) :=
            List.mem_singleton.mp hp
          subst this
          rfl
        · intro entries he
          cases he
      · rcases List.mem_cons.mp h with h | h
        · subst h; trivial
        · cases h)).1

/-! ## C9, C1, C2 -/

/-- C9: for the explicit hostname-transition update with a valid org,
successful auth, and an available webhooks configuration: a registration
already at the new desired URL makes the operation an idempotent no-op
returning that registration's id; with no registration at the old desired
URL the operation fails with the no-existing-registration error rather than
silently succeeding; otherwise the old-URL registration is PATCHed to the
new URL and its id returned, a PATCH failure being reported with the remote
error detail.  Hook ids are assumed non-zero (remote-assigned ids), since
the source's truthiness tests treat id 0 as absent. -/
theorem c9_update_org_webhook (e : Env) (st : ScopeState) (org oldH newH : String)
    (cfg : WebhooksConfig)
    (hv : validateOrg org = true) (ha : e.authOk = true)
    (hcfg : e.webhooksConfig = some cfg) (hlist : e.listOk = true)
    (hwf : ∀ h ∈ st.hooks, h.id ≠ 0) :
    (∀ hk, st.hooks.find? (fun h => h.url = desiredUrl newH cfg.basePath) = some hk →
      updateOrgWebhook e st org oldH newH =
        ⟨⟨true, some (desiredUrl newH cfg.basePath), some hk.id, none⟩, st,
         [.authCheck, .listHooks ("orgs/" ++ org ++ "/hooks")]⟩) ∧
    (st.hooks.find? (fun h => h.url = desiredUrl newH cfg.basePath) = none →
      st.hooks.find? (fun h => h.url = desiredUrl oldH cfg.basePath) = none →
      updateOrgWebhook e st org oldH newH =
        ⟨⟨false, none, none,
           some ("No existing webhook found for " ++ org ++ " with URL " ++
             desiredUrl oldH cfg.basePath)⟩, st,
         [.authCheck, .listHooks ("orgs/" ++ org ++ "/hooks"),
          .listHooks ("orgs/" ++ org ++ "/hooks")]⟩) ∧
    (∀ hk, st.hooks.find? (fun h => h.url = desiredUrl newH cfg.basePath) = none →
      st.hooks.find? (fun h => h.url = desiredUrl oldH cfg.basePath) = some hk →
      e.patchOk = true →
      updateOrgWebhook e st org oldH newH =
        ⟨⟨true, some (desiredUrl newH cfg.basePath), some hk.id, none⟩,
         patchHookState st hk.id (desiredUrl newH cfg.basePath),
         [.authCheck, .listHooks ("orgs/" ++ org ++ "/hooks"),
          .listHooks ("orgs/" ++ org ++ "/hooks"),
          .patchHook ("orgs/" ++ org ++ "/hooks/" ++ toString hk.id)
            (desiredUrl newH cfg.basePath)]⟩) ∧
    (∀ hk, st.hooks.find? (fun h => h.url = desiredUrl newH cfg.basePath) = none →
      st.hooks.find? (fun h => h.url = desiredUrl oldH cfg.basePath) = some hk →
      e.patchOk = false →
      updateOrgWebhook e st org oldH newH =
        ⟨⟨false, none, none,
           some ("Failed to update webhook " ++ toString hk.id ++ ": " ++ e.patchErr)⟩, st,
         [.authCheck, .listHooks ("orgs/" ++ org ++ "/hooks"),
          .listHooks ("orgs/" ++ org ++ "/hooks"),
          .patchHook ("orgs/" ++ org ++ "/hooks/" ++ toString hk.id)
            (desiredUrl newH cfg.basePath)]⟩) := by
  refine ⟨?_, ?_, ?_, ?_⟩
  · intro hk hfind
    have hid : hk.id ≠ 0 := hwf hk (List.mem_of_find?_eq_some hfind)
    simp [updateOrgWebhook, findOrgWebhookByUrl, hv, ha, hcfg, hlist, hfind, hid]
  · intro hnew hold
    simp [updateOrgWebhook, updateOrgFindOld, findOrgWebhookByUrl,
      hv, ha, hcfg, hlist, hnew, hold]
  · intro hk hnew hold hpatch
    have hid : hk.id ≠ 0 := hwf hk (List.mem_of_find?_eq_some hold)
    simp [updateOrgWebhook, updateOrgFindOld, findOrgWebhookByUrl,
      hv, ha, hcfg, hlist, hnew, hold, hid, hpatch]
  · intro hk hnew hold hpatch
    have hid : hk.id ≠ 0 := hwf hk (List.mem_of_find?_eq_some hold)
    simp [updateOrgWebhook, updateOrgFindOld, findOrgWebhookByUrl,
      hv, ha, hcfg, hlist, hnew, hold, hid, hpatch]

/-- C9 witness: with a registration already at the new desired URL, the
explicit update is an idempotent no-op returning that registration's id. -/
theorem c9_update_org_webhook_witness :
    updateOrgWebhook
      ⟨true, true, some "new", some ⟨"/hooks", "tok"⟩, true, true, "boom", true, "", true, "", "t"⟩
      ⟨[⟨7, desiredUrl "new" "/hooks"⟩], 9⟩ "o" "old" "new" =
    ⟨⟨true, some (desiredUrl "new" "/hooks"), some 7, none⟩,
     ⟨[⟨7, desiredUrl "new" "/hooks"⟩], 9⟩,
     [.authCheck, .listHooks "orgs/o/hooks"]⟩ :=
  (c9_update_org_webhook
    ⟨true, true, some "new", some ⟨"/hooks", "tok"⟩, true, true, "boom", true, "", true, "", "t"⟩
    ⟨[⟨7, desiredUrl "new" "/hooks"⟩], 9⟩ "o" "old" "new" ⟨"/hooks", "tok"⟩
    (by decide) rfl rfl rfl (by decide)).1
    ⟨7, desiredUrl "new" "/hooks"⟩ (by rfl)

/-- C1: organization-scope setup under successful auth, a computable desired
URL, and a configured token follows the tie-break order: an exact-URL
registration is returned as-is with no write call; otherwise a registration
whose URL ends with the base-path suffix is PATCHed in place (URL only) and
its id returned rather than creating a new registration; only when neither
exists is a new registration created and its freshly assigned id returned.
Hook ids are assumed non-zero (remote-assigned), the listing call is assumed
to succeed, and the PATCH/create outcomes appear as explicit premises. -/
theorem c1_setup_tie_break (e : Env) (st : ScopeState) (org url : String)
    (cfg : WebhooksConfig)
    (hv : validateOrg org = true) (ha : e.authOk = true)
    (hurl : getWebhookUrl e = some url) (hcfg : e.webhooksConfig = some cfg)
    (htok : cfg.token ≠ "") (hlist : e.listOk = true)
    (hwf : ∀ h ∈ st.hooks, h.id ≠ 0) :
    (∀ hk, st.hooks.find? (fun h => h.url = url) = some hk →
      setupOrgWebhook e st org =
        ⟨⟨true, some url, some hk.id, none⟩, st,
         [.authCheck, .listHooks ("orgs/" ++ org ++ "/hooks")]⟩) ∧
    (∀ hk, st.hooks.find? (fun h => h.url = url) = none →
      st.hooks.find?
        (fun h => h.url ≠ "" && strEndsWith h.url (cfg.basePath ++ "/github")) = some hk →
      e.patchOk = true →
      setupOrgWebhook e st org =
        ⟨⟨true, some url, some hk.id, none⟩, patchHookState st hk.id url,
         [.authCheck, .listHooks ("orgs/" ++ org ++ "/hooks"),
          .listHooks ("orgs/" ++ org ++ "/hooks"),
          .patchHook ("orgs/" ++ org ++ "/hooks/" ++ toString hk.id) url]⟩) ∧
    (st.hooks.find? (fun h => h.url = url) = none →
      st.hooks.find?
        (fun h => h.url ≠ "" && strEndsWith h.url (cfg.basePath ++ "/github")) = none →
      e.createOk = true →
      setupOrgWebhook e st org =
        ⟨⟨true, some url, some st.nextId, none⟩,
         ⟨st.hooks ++ [⟨st.nextId, url⟩], st.nextId + 1⟩,
         [.authCheck, .listHooks ("orgs/" ++ org ++ "/hooks"),
          .listHooks ("orgs/" ++ org ++ "/hooks"),
          .createHook ("orgs/" ++ org ++ "/hooks") url
            ["pull_request", "pull_request_review"]]⟩) := by
  refine ⟨?_, ?_, ?_⟩
  · intro hk hfind
    have hid : hk.id ≠ 0 := hwf hk (List.mem_of_find?_eq_some hfind)
    simp [setupOrgWebhook, findOrgWebhookByUrl, hv, ha, hurl, hcfg, htok, hlist, hfind, hid]
  · intro hk hexact hstale hpatch
    simp only [ne_eq, decide_not] at hstale
    simp [setupOrgWebhook, setupStale, findOrgWebhookByUrl, findAnyOrgWebhook,
      hv, ha, hurl, hcfg, htok, hlist, hexact, hstale, hpatch]
  · intro hexact hstale hcreate
    simp only [ne_eq, decide_not] at hstale
    simp [setupOrgWebhook, setupStale, setupCreate, findOrgWebhookByUrl, findAnyOrgWebhook,
      hv, ha, hurl, hcfg, htok, hlist, hexact, hstale, hcreate]

/-- C1 witness: a stale registration (same base-path suffix, old host) is
patched in place to the new desired URL and its id returned; no creation
occurs. -/
theorem c1_setup_tie_break_witness :
    setupOrgWebhook
      ⟨true, true, some "new", some ⟨"/hooks", "tok"⟩, true, true, "", true, "", true, "", "t"⟩
      ⟨[⟨5, "https://old/hooks/github"⟩], 9⟩ "o" =
    ⟨⟨true, some "https://new/hooks/github", some 5, none⟩,
     patchHookState ⟨[⟨5, "https://old/hooks/github"⟩], 9⟩ 5 "https://new/hooks/github",
     [.authCheck, .listHooks "orgs/o/hooks", .listHooks "orgs/o/hooks",
      .patchHook "orgs/o/hooks/5" "https://new/hooks/github"]⟩ :=
  (c1_setup_tie_break
    ⟨true, true, some "new", some ⟨"/hooks", "tok"⟩, true, true, "", true, "", true, "", "t"⟩
    ⟨[⟨5, "https://old/hooks/github"⟩], 9⟩ "o" "https://new/hooks/github" ⟨"/hooks", "tok"⟩
    (by decide) rfl rfl rfl (by decide) rfl (by decide)).2.1
    ⟨5, "https://old/hooks/github"⟩ (by decide) (by decide) rfl

theorem patchHookState_wf {st : ScopeState} (hwf : ∀ h ∈ st.hooks, h.id ≠ 0)
    (i : Nat) (url : String) :
    ∀ h ∈ (patchHookState st i url).hooks, h.id ≠ 0 := by
  intro h hm
  unfold patchHookState at hm
  rcases List.mem_map.mp hm with ⟨q, hq, hqe⟩
  by_cases hqi : q.id = i
  · rw [if_pos hqi] at hqe
    rw [← hqe]
    exact hqi ▸ hwf q hq
  · rw [if_neg hqi] at hqe
    rw [← hqe]
    exact hwf q hq

theorem find?_patchHookState {hooks : List Hook} {url : String} {i : Nat}
    (hnone : hooks.find? (fun h => h.url = url) = none)
    (hmem : ∃ h ∈ hooks, h.id = i) :
    (hooks.map (fun h => if h.id = i then (⟨h.id, url⟩ : Hook) else h)).find?
      (fun h => h.url = url) = some ⟨i, url⟩ := by
  induction hooks with
  | nil => obtain ⟨h, hm, _⟩ := hmem; cases hm
  | cons a t ih =>
      have hau : ¬ (a.url = url) := by
        intro hc
        rw [List.find?_cons_of_pos t (by simpa using hc)] at hnone
        cases hnone
      have hnone2 : t.find? (fun h => h.url = url) = none := by
        rw [List.find?_cons_of_neg t (by simpa using hau)] at hnone
        exact hnone
      simp only [List.map_cons]
      by_cases hai : a.id = i
      · rw [if_pos hai]
        rw [List.find?_cons_of_pos _ (by simp)]
        rw [hai]
      · rw [if_neg hai]
        rw [List.find?_cons_of_neg _ (by simpa using hau)]
        apply ih hnone2
        obtain ⟨h, hm, hi⟩ := hmem
        rcases List.mem_cons.mp hm with heq | hm
        · subst heq; exact absurd hi hai
        · exact ⟨h, hm, hi⟩

theorem setupOrg_success_inversion {e : Env} {st : ScopeState} {org : String}
    (h1 : (setupOrgWebhook e st org).res.success = true) :
    validateOrg org = true ∧ e.authOk = true ∧
    ∃ url cfg, getWebhookUrl e = some url ∧ e.webhooksConfig = some cfg ∧
      cfg.token ≠ "" := by
  by_cases hv : validateOrg org = true
  · by_cases ha : e.authOk = true
    · cases hurl : getWebhookUrl e with
      | none => simp [setupOrgWebhook, hv, ha, hurl] at h1
      | some url =>
          cases hcfg : e.webhooksConfig with
          | none => simp [setupOrgWebhook, hv, ha, hurl, hcfg] at h1
          | some cfg =>
              by_cases htok : cfg.token = ""
              · simp [setupOrgWebhook, hv, ha, hurl, hcfg, htok] at h1
              · exact ⟨hv, ha, url, cfg, rfl, rfl, htok⟩
    · simp [setupOrgWebhook, hv, ha] at h1
  · simp [setupOrgWebhook, hv] at h1

theorem setupOrg_eq_exact {e : Env} {st : ScopeState} {org url : String}
    {cfg : WebhooksConfig} {hk : Hook}
    (hv : validateOrg org = true) (ha : e.authOk = true)
    (hurl : getWebhookUrl e = some url) (hcfg : e.webhooksConfig = some cfg)
    (htok : cfg.token ≠ "") (hlist : e.listOk = true)
    (hfind : st.hooks.find? (fun h => h.url = url) = some hk) (hid : hk.id ≠ 0) :
    setupOrgWebhook e st org =
      ⟨⟨true, some url, some hk.id, none⟩, st,
       [.authCheck, .listHooks ("orgs/" ++ org ++ "/hooks")]⟩ := by
  simp [setupOrgWebhook, findOrgWebhookByUrl, hv, ha, hurl, hcfg, htok, hlist, hfind, hid]

theorem setupOrg_eq_stale_patch {e : Env} {st : ScopeState} {org url : String}
    {cfg : WebhooksConfig} {hs : Hook}
    (hv : validateOrg org = true) (ha : e.authOk = true)
    (hurl : getWebhookUrl e = some url) (hcfg : e.webhooksConfig = some cfg)
    (htok : cfg.token ≠ "") (hlist : e.listOk = true)
    (hexact : st.hooks.find? (fun h => h.url = url) = none)
    (hstale : st.hooks.find?
      (fun h => h.url ≠ "" && strEndsWith h.url (cfg.basePath ++ "/github")) = some hs)
    (hpatch : e.patchOk = true) :
    setupOrgWebhook e st org =
      ⟨⟨true, some url, some hs.id, none⟩, patchHookState st hs.id url,
       [.authCheck, .listHooks ("orgs/" ++ org ++ "/hooks"),
        .listHooks ("orgs/" ++ org ++ "/hooks"),
        .patchHook ("orgs/" ++ org ++ "/hooks/" ++ toString hs.id) url]⟩ := by
  simp only [ne_eq, decide_not] at hstale
  simp [setupOrgWebhook, setupStale, findOrgWebhookByUrl, findAnyOrgWebhook,
    hv, ha, hurl, hcfg, htok, hlist, hexact, hstale, hpatch]

theorem setupOrg_eq_create {e : Env} {st : ScopeState} {org url : String}
    {cfg : WebhooksConfig}
    (hv : validateOrg org = true) (ha : e.authOk = true)
    (hurl : getWebhookUrl e = some url) (hcfg : e.webhooksConfig = some cfg)
    (htok : cfg.token ≠ "") (hlist : e.listOk = true)
    (hexact : st.hooks.find? (fun h => h.url = url) = none)
    (hstale : st.hooks.find?
      (fun h => h.url ≠ "" && strEndsWith h.url (cfg.basePath ++ "/github")) = none)
    (hcreate : e.createOk = true) :
    setupOrgWebhook e st org =
      ⟨⟨true, some url, some st.nextId, none⟩,
       ⟨st.hooks ++ [⟨st.nextId, url⟩], st.nextId + 1⟩,
       [.authCheck, .listHooks ("orgs/" ++ org ++ "/hooks"),
        .listHooks ("orgs/" ++ org ++ "/hooks"),
        .createHook ("orgs/" ++ org ++ "/hooks") url
          ["pull_request", "pull_request_review"]]⟩ := by
  simp only [ne_eq, decide_not] at hstale
  simp [setupOrgWebhook, setupStale, setupCreate, findOrgWebhookByUrl, findAnyOrgWebhook,
    hv, ha, hurl, hcfg, htok, hlist, hexact, hstale, hcreate]

theorem setupOrg_eq_patchfail_create {e : Env} {st : ScopeState} {org url : String}
    {cfg : WebhooksConfig} {hs : Hook}
    (hv : validateOrg org = true) (ha : e.authOk = true)
    (hurl : getWebhookUrl e = some url) (hcfg : e.webhooksConfig = some cfg)
    (htok : cfg.token ≠ "") (hlist : e.listOk = true)
    (hexact : st.hooks.find? (fun h => h.url = url) = none)
    (hstale : st.hooks.find?
      (fun h => h.url ≠ "" && strEndsWith h.url (cfg.basePath ++ "/github")) = some hs)
    (hpatch : e.patchOk = false) (hcreate : e.createOk = true) :
    setupOrgWebhook e st org =
      ⟨⟨true, some url, some st.nextId, none⟩,
       ⟨st.hooks ++ [⟨st.nextId, url⟩], st.nextId + 1⟩,
       [.authCheck, .listHooks ("orgs/" ++ org ++ "/hooks"),
        .listHooks ("orgs/" ++ org ++ "/hooks"),
        .patchHook ("orgs/" ++ org ++ "/hooks/" ++ toString hs.id) url,
        .createHook ("orgs/" ++ org ++ "/hooks") url
          ["pull_request", "pull_request_review"]]⟩ := by
  simp only [ne_eq, decide_not] at hstale
  simp [setupOrgWebhook, setupStale, setupCreate, findOrgWebhookByUrl, findAnyOrgWebhook,
    hv, ha, hurl, hcfg, htok, hlist, hexact, hstale, hpatch, hcreate]

theorem setupOrg_res_fail_createfail_stalenone {e : Env} {st : ScopeState}
    {org url : String} {cfg : WebhooksConfig}
    (hv : validateOrg org = true) (ha : e.authOk = true)
    (hurl : getWebhookUrl e = some url) (hcfg : e.webhooksConfig = some cfg)
    (htok : cfg.token ≠ "") (hlist : e.listOk = true)
    (hexact : st.hooks.find? (fun h => h.url = url) = none)
    (hstale : st.hooks.find?
      (fun h => h.url ≠ "" && strEndsWith h.url (cfg.basePath ++ "/github")) = none)
    (hcreate : e.createOk = false) :
    (setupOrgWebhook e st org).res.success = false := by
  simp only [ne_eq, decide_not] at hstale
  simp [setupOrgWebhook, setupStale, setupCreate, findOrgWebhookByUrl, findAnyOrgWebhook,
    hv, ha, hurl, hcfg, htok, hlist, hexact, hstale, hcreate]

theorem setupOrg_res_fail_createfail_patchfail {e : Env} {st : ScopeState}
    {org url : String} {cfg : WebhooksConfig} {hs : Hook}
    (hv : validateOrg org = true) (ha : e.authOk = true)
    (hurl : getWebhookUrl e = some url) (hcfg : e.webhooksConfig = some cfg)
    (htok : cfg.token ≠ "") (hlist : e.listOk = true)
    (hexact : st.hooks.find? (fun h => h.url = url) = none)
    (hstale : st.hooks.find?
      (fun h => h.url ≠ "" && strEndsWith h.url (cfg.basePath ++ "/github")) = some hs)
    (hpatch : e.patchOk = false) (hcreate : e.createOk = false) :
    (setupOrgWebhook e st org).res.success = false := by
  simp only [ne_eq, decide_not] at hstale
  simp [setupOrgWebhook, setupStale, setupCreate, findOrgWebhookByUrl, findAnyOrgWebhook,
    hv, ha, hurl, hcfg, htok, hlist, hexact, hstale, hpatch, hcreate]

/-- C2: calling organization-scope setup twice in succession with an
unchanged environment (hence unchanged desired URL), when the first call
succeeds, yields the same registration id both times; the second call's
remote trace is exactly the authentication check and one listing — no
create and no update call.  Hook ids and the next remote-assigned id are
assumed non-zero, and the listing call is assumed to succeed. -/
theorem c2_setup_idempotent (e : Env) (st : ScopeState) (org : String)
    (hwf : ∀ h ∈ st.hooks, h.id ≠ 0) (hnext : st.nextId ≠ 0)
    (hlist : e.listOk = true)
    (h1 : (setupOrgWebhook e st org).res.success = true) :
    (setupOrgWebhook e (setupOrgWebhook e st org).state org).res.success = true ∧
    (setupOrgWebhook e (setupOrgWebhook e st org).state org).res.webhookId =
      (setupOrgWebhook e st org).res.webhookId ∧
    (setupOrgWebhook e (setupOrgWebhook e st org).state org).calls =
      [.authCheck, .listHooks ("orgs/" ++ org ++ "/hooks")] := by
  obtain ⟨hv, ha, url, cfg, hurl, hcfg, htok⟩ := setupOrg_success_inversion h1
  cases hexact : st.hooks.find? (fun h => h.url = url) with
  | some hk =>
      have hid : hk.id ≠ 0 := hwf hk (List.mem_of_find?_eq_some hexact)
      have e1 := setupOrg_eq_exact hv ha hurl hcfg htok hlist hexact hid
      rw [e1]
      dsimp only
      rw [e1]
      exact ⟨rfl, rfl, rfl⟩
  | none =>
      cases hstale : st.hooks.find?
          (fun h => h.url ≠ "" && strEndsWith h.url (cfg.basePath ++ "/github")) with
      | some hs =>
          have hsid : hs.id ≠ 0 := hwf hs (List.mem_of_find?_eq_some hstale)
          cases hpatch : e.patchOk with
          | true =>
              have e1 := setupOrg_eq_stale_patch hv ha hurl hcfg htok hlist hexact hstale hpatch
              rw [e1]
              dsimp only
              have hfind2 : (patchHookState st hs.id url).hooks.find?
                  (fun h => h.url = url) = some ⟨hs.id, url⟩ := by
                unfold patchHookState
                exact find?_patchHookState hexact
                  ⟨hs, List.mem_of_find?_eq_some hstale, rfl⟩
              have e2 := @setupOrg_eq_exact e (patchHookState st hs.id url) org url cfg
                ⟨hs.id, url⟩ hv ha hurl hcfg htok hlist hfind2 (by simpa using hsid)
              rw [e2]
              exact ⟨rfl, rfl, rfl⟩
          | false =>
              cases hcreate : e.createOk with
              | true =>
                  have e1 := setupOrg_eq_patchfail_create hv ha hurl hcfg htok hlist
                    hexact hstale hpatch hcreate
                  rw [e1]
                  dsimp only
                  have hfind2 : ((⟨st.hooks ++ [⟨st.nextId, url⟩], st.nextId + 1⟩ :
                      ScopeState)).hooks.find? (fun h => h.url = url) =
                      some ⟨st.nextId, url⟩ := by
                    dsimp only
                    rw [List.find?_append, hexact]
                    simp
                  have e2 := @setupOrg_eq_exact e
                    ⟨st.hooks ++ [⟨st.nextId, url⟩], st.nextId + 1⟩ org url cfg
                    ⟨st.nextId, url⟩ hv ha hurl hcfg htok hlist hfind2 (by simpa using hnext)
                  rw [e2]
                  exact ⟨rfl, rfl, rfl⟩
              | false =>
                  have hfail := setupOrg_res_fail_createfail_patchfail hv ha hurl hcfg
                    htok hlist hexact hstale hpatch hcreate
                  rw [hfail] at h1
                  cases h1
      | none =>
          cases hcreate : e.createOk with
          | true =>
              have e1 := setupOrg_eq_create hv ha hurl hcfg htok hlist hexact hstale hcreate
              rw [e1]
              dsimp only
              have hfind2 : ((⟨st.hooks ++ [⟨st.nextId, url⟩], st.nextId + 1⟩ :
                  ScopeState)).hooks.find? (fun h => h.url = url) =
                  some ⟨st.nextId, url⟩ := by
                dsimp only
                rw [List.find?_append, hexact]
                simp
              have e2 := @setupOrg_eq_exact e
                ⟨st.hooks ++ [⟨st.nextId, url⟩], st.nextId + 1⟩ org url cfg
                ⟨st.nextId, url⟩ hv ha hurl hcfg htok hlist hfind2 (by simpa using hnext)
              rw [e2]
              exact ⟨rfl, rfl, rfl⟩
          | false =>
              have hfail := setupOrg_res_fail_createfail_stalenone hv ha hurl hcfg
                htok hlist hexact hstale hcreate
              rw [hfail] at h1
              cases h1

/-- C2 witness: from an empty scope, a first setup creates a registration
and a second setup returns the same id while issuing only the
authentication check and one listing. -/
theorem c2_setup_idempotent_witness :
    (setupOrgWebhook
        ⟨true, true, some "h", some ⟨"/hooks", "tok"⟩, true, true, "", true, "", true, "", "t"⟩
        (setupOrgWebhook
          ⟨true, true, some "h", some ⟨"/hooks", "tok"⟩, true, true, "", true, "", true, "", "t"⟩
          ⟨[], 1⟩ "o").state "o").res.webhookId =
      (setupOrgWebhook
        ⟨true, true, some "h", some ⟨"/hooks", "tok"⟩, true, true, "", true, "", true, "", "t"⟩
        ⟨[], 1⟩ "o").res.webhookId ∧
    (setupOrgWebhook
        ⟨true, true, some "h", some ⟨"/hooks", "tok"⟩, true, true, "", true, "", true, "", "t"⟩
        (setupOrgWebhook
          ⟨true, true, some "h", some ⟨"/hooks", "tok"⟩, true, true, "", true, "", true, "", "t"⟩
          ⟨[], 1⟩ "o").state "o").calls =
      [.authCheck, .listHooks "orgs/o/hooks"] :=
  have h := c2_setup_idempotent
    ⟨true, true, some "h", some ⟨"/hooks", "tok"⟩, true, true, "", true, "", true, "", "t"⟩
    ⟨[], 1⟩ "o" (by intro h hm; cases hm) (by decide) rfl (by rfl)
  ⟨h.2.1, h.2.2⟩
